import Mathlib

/-!
Verification of the Generation Orchestration Engine (AI orchestrator module):
circuit breaker, provider gateway, backoff calculator, JSON response healer,
staged pipeline and single-shot fallback pipeline.  Definitions are shallow
embeddings of the TypeScript source; strings are modelled as Lean strings
(the inputs of interest are ASCII, where JS UTF-16 length and Lean character
counts agree), machine timestamps as natural numbers of milliseconds, and
the nondeterministic jitter of the backoff calculator as an explicit
rational parameter.
-/

namespace WPO

set_option maxRecDepth 8000

/-! ## Basic character and string utilities -/

/-- Whitespace characters recognised by the JavaScript regex class and by
String.trim: the common ASCII whitespace plus NBSP and BOM.  (Exotic Unicode
space code points do not occur in any input considered here.) -/
def jsWs (c : Char) : Bool :=
  c = ' ' || c = '\t' || c = '\n' || c = '\r' ||
  c = Char.ofNat 11 || c = Char.ofNat 12 || c = Char.ofNat 160 || c = Char.ofNat 65279

/-- JavaScript `String.prototype.trim` on a character list. -/
def jsTrimList (cs : List Char) : List Char :=
  ((cs.dropWhile jsWs).reverse.dropWhile jsWs).reverse

def jsTrim (s : String) : String := String.mk (jsTrimList s.toList)

/-- Count occurrences of a character (used for the delimiter-balance checks,
mirroring `(text.match /\{/g || []).length`). -/
def countChar (c : Char) (cs : List Char) : Nat :=
  (cs.filter (· = c)).length

/-- Substring test, mirroring `String.prototype.includes`. -/
def listIncludes (needle : List Char) : List Char → Bool
  | [] => needle.isEmpty
  | c :: rest => needle.isPrefixOf (c :: rest) || listIncludes needle rest

def strIncludes (hay needle : String) : Bool :=
  listIncludes needle.toList hay.toList

/-- Index of the first occurrence of a character, mirroring `indexOf`
(`none` plays the role of `-1`). -/
def firstIdx (c : Char) (cs : List Char) : Option Nat :=
  cs.findIdx? (· = c)

/-- Index of the last occurrence of a character, mirroring `lastIndexOf`. -/
def lastIdx (c : Char) (cs : List Char) : Option Nat :=
  match firstIdx c cs.reverse with
  | some i => some (cs.length - 1 - i)
  | none => none

/-- `text.slice(0, n)` on a string. -/
def takePrefix (s : String) (n : Nat) : String := String.mk (s.toList.take n)

def lbrace : Char := Char.ofNat 123
def rbrace : Char := Char.ofNat 125

/-! ## JSON values and a model of `JSON.parse`

The healer repeatedly calls the platform's `JSON.parse`; we model it with a
recursive-descent parser of the JSON grammar (RFC 8259, which `JSON.parse`
implements): optional insignificant whitespace, objects, arrays, strings
with escapes, numbers with optional fraction/exponent, `true`/`false`/`null`,
and rejection of any trailing non-whitespace input. -/

inductive Json where
  | null : Json
  | bool : Bool → Json
  | num : ℚ → Json
  | str : String → Json
  | arr : List Json → Json
  | obj : List (String × Json) → Json
deriving BEq, Repr

/-- Whitespace insignificant to `JSON.parse` (space, tab, LF, CR). -/
def jsonWs (c : Char) : Bool :=
  c = ' ' || c = '\t' || c = '\n' || c = '\r'

def skipWs (cs : List Char) : List Char := cs.dropWhile jsonWs

def hexVal (c : Char) : Option Nat :=
  if '0' ≤ c ∧ c ≤ '9' then some (c.toNat - '0'.toNat)
  else if 'a' ≤ c ∧ c ≤ 'f' then some (c.toNat - 'a'.toNat + 10)
  else if 'A' ≤ c ∧ c ≤ 'F' then some (c.toNat - 'A'.toNat + 10)
  else none

/-- Parse the body of a JSON string (the opening quote already consumed),
returning the decoded content and the remaining input. -/
def parseStringAux : List Char → List Char → Option (List Char × List Char)
  | [], _ => none
  | '"' :: rest, acc => some (acc.reverse, rest)
  | '\\' :: rest, acc =>
    match rest with
    | '"' :: r => parseStringAux r ('"' :: acc)
    | '\\' :: r => parseStringAux r ('\\' :: acc)
    | '/' :: r => parseStringAux r ('/' :: acc)
    | 'b' :: r => parseStringAux r (Char.ofNat 8 :: acc)
    | 'f' :: r => parseStringAux r (Char.ofNat 12 :: acc)
    | 'n' :: r => parseStringAux r ('\n' :: acc)
    | 'r' :: r => parseStringAux r ('\r' :: acc)
    | 't' :: r => parseStringAux r ('\t' :: acc)
    | 'u' :: a :: b :: c :: d :: r =>
      match hexVal a, hexVal b, hexVal c, hexVal d with
      | some ha, some hb, some hc, some hd =>
        parseStringAux r (Char.ofNat (((ha * 16 + hb) * 16 + hc) * 16 + hd) :: acc)
      | _, _, _, _ => none
    | _ => none
  | c :: rest, acc =>
    if c.toNat < 32 then none else parseStringAux rest (c :: acc)

def parseJsonString (cs : List Char) : Option (String × List Char) :=
  (parseStringAux cs []).map (fun p => (String.mk p.1, p.2))

def isDigit (c : Char) : Bool := '0' ≤ c && c ≤ '9'

def takeDigits (cs : List Char) : List Char × List Char :=
  (cs.takeWhile isDigit, cs.dropWhile isDigit)

def digitsToNat (ds : List Char) : Nat :=
  ds.foldl (fun n c => n * 10 + (c.toNat - '0'.toNat)) 0

/-- Parse a JSON number token (grammar: `-? (0 | [1-9][0-9]*) frac? exp?`),
returning its rational value. -/
def parseNumber (cs : List Char) : Option (ℚ × List Char) :=
  let (neg, cs₁) := match cs with
    | '-' :: r => (true, r)
    | _ => (false, cs)
  let (intDs, cs₂) := takeDigits cs₁
  match intDs with
  | [] => none
  | d₀ :: ds =>
    if d₀ = '0' ∧ ds ≠ [] then none  -- leading zero rejected by JSON.parse
    else
      let (fracDs, cs₃) := match cs₂ with
        | '.' :: r => takeDigits r
        | _ => ([], cs₂)
      if (match cs₂ with | '.' :: _ => fracDs.isEmpty | _ => false) then none
      else
        let (expOk, expNeg, expDs, cs₄) := match cs₃ with
          | 'e' :: r | 'E' :: r =>
            let (en, r₁) := match r with
              | '+' :: r' => (false, r')
              | '-' :: r' => (true, r')
              | _ => (false, r)
            let (eds, r₂) := takeDigits r₁
            (!eds.isEmpty, en, eds, r₂)
          | _ => (true, false, ([] : List Char), cs₃)
        if !expOk then none
        else
          -- The two branches denote the same rational (see
          -- `parseNumber_value_coherent`); the first is split off so that
          -- integer literals, the only numbers occurring in the inputs of
          -- interest, are built without rational arithmetic.
          let value : ℚ :=
            if fracDs.isEmpty && expDs.isEmpty then (digitsToNat intDs : ℕ)
            else
              ((digitsToNat intDs * 10 ^ fracDs.length + digitsToNat fracDs : ℕ) : ℚ) *
                (10 : ℚ) ^ ((if expNeg then -(digitsToNat expDs : ℤ)
                             else (digitsToNat expDs : ℤ)) - fracDs.length)
          some (if neg then -value else value, cs₄)

/-- Sanity check: the integer fast path of `parseNumber` agrees with the
general mantissa-times-power formula at empty fraction and exponent. -/
theorem parseNumber_value_coherent (intDs : List Char) :
    ((digitsToNat intDs : ℕ) : ℚ) =
      ((digitsToNat intDs * 10 ^ (List.length ([] : List Char)) + digitsToNat [] : ℕ) : ℚ) *
        (10 : ℚ) ^ ((0 : ℤ) - List.length ([] : List Char)) := by
  simp [digitsToNat]

mutual

/-- Parse a JSON value (leading whitespace allowed), fuel-bounded. -/
def parseValue : Nat → List Char → Option (Json × List Char)
  | 0, _ => none
  | Nat.succ fuel, cs =>
    match skipWs cs with
    | [] => none
    | c :: rest =>
      if c = '"' then (parseJsonString rest).map (fun p => (Json.str p.1, p.2))
      else if c = lbrace then
        match skipWs rest with
        | c' :: rest' =>
          if c' = rbrace then some (Json.obj [], rest')
          else
            match parseMembers fuel (c' :: rest') [] with
            | some (kvs, rest'') => some (Json.obj kvs, rest'')
            | none => none
        | [] => none
      else if c = '[' then
        match skipWs rest with
        | ']' :: rest' => some (Json.arr [], rest')
        | other =>
          match parseElems fuel other [] with
          | some (vs, rest'') => some (Json.arr vs, rest'')
          | none => none
      else if c = 't' then
        if ['r', 'u', 'e'].isPrefixOf rest then some (Json.bool true, rest.drop 3) else none
      else if c = 'f' then
        if ['a', 'l', 's', 'e'].isPrefixOf rest then some (Json.bool false, rest.drop 4) else none
      else if c = 'n' then
        if ['u', 'l', 'l'].isPrefixOf rest then some (Json.null, rest.drop 3) else none
      else (parseNumber (c :: rest)).map (fun p => (Json.num p.1, p.2))

/-- Parse the members of an object after at least one member is known to
follow (cursor just past the opening brace and whitespace). -/
def parseMembers : Nat → List Char → List (String × Json) → Option (List (String × Json) × List Char)
  | 0, _, _ => none
  | Nat.succ fuel, cs, acc =>
    match skipWs cs with
    | '"' :: rest =>
      match parseJsonString rest with
      | some (key, rest₁) =>
        match skipWs rest₁ with
        | ':' :: rest₂ =>
          match parseValue fuel rest₂ with
          | some (v, rest₃) =>
            match skipWs rest₃ with
            | ',' :: rest₄ => parseMembers fuel rest₄ ((key, v) :: acc)
            | c :: rest₄ =>
              if c = rbrace then some (((key, v) :: acc).reverse, rest₄) else none
            | [] => none
          | none => none
        | _ => none
      | none => none
    | _ => none

/-- Parse the elements of an array after at least one element is known to
follow. -/
def parseElems : Nat → List Char → List Json → Option (List Json × List Char)
  | 0, _, _ => none
  | Nat.succ fuel, cs, acc =>
    match parseValue fuel cs with
    | some (v, rest) =>
      match skipWs rest with
      | ',' :: rest₁ => parseElems fuel rest₁ (v :: acc)
      | ']' :: rest₁ => some ((v :: acc).reverse, rest₁)
      | _ => none
    | none => none

end

/-- Model of `JSON.parse`: parse one value and reject trailing input;
`none` plays the role of the thrown `SyntaxError`. -/
def jsonParse (s : String) : Option Json :=
  let cs := s.toList
  match parseValue (4 * cs.length + 8) cs with
  | some (j, rest) => if skipWs rest = [] then some j else none
  | none => none

/-- Property access on a parsed value, mirroring JavaScript member access on
the result of `JSON.parse` (duplicate keys: the last one wins; access on a
non-object yields `undefined`, i.e. `none`). -/
def getField (j : Json) (name : String) : Option Json :=
  match j with
  | Json.obj kvs =>
    match kvs.reverse.find? (fun kv => kv.1 = name) with
    | some kv => some kv.2
    | none => none
  | _ => none

/-- JavaScript truthiness of a JSON value (`undefined` handled by callers). -/
def truthy : Json → Bool
  | Json.null => false
  | Json.bool b => b
  | Json.num q => q ≠ 0
  | Json.str s => s ≠ ""
  | Json.arr _ => true
  | Json.obj _ => true

/-- Truthiness of `x.f`, where missing fields are falsy `undefined`. -/
def fieldTruthy (j : Json) (name : String) : Bool :=
  match getField j name with
  | some v => truthy v
  | none => false

/-- JavaScript property assignment `obj.k = v` on a parsed value: replaces
the value at key `k` (adding the key if absent).  Objects produced by
`JSON.parse` have no duplicate keys, so replacing every matching entry
agrees with assignment on all values this model manipulates. -/
def setField (j : Json) (name : String) (v : Json) : Json :=
  match j with
  | Json.obj kvs =>
    if kvs.any (fun kv => kv.1 = name) then
      Json.obj (kvs.map (fun kv => if kv.1 = name then (kv.1, v) else kv))
    else Json.obj (kvs ++ [(name, v)])
  | other => other

/-! ## `escapeHtml` and `countWords` -/

/-- `escapeHtml` replaces the five HTML-special characters by entities
(the source's chained global replaces are equivalent to this single
character map, since no replacement output contains a character replaced
by a later pass on fresh text). -/
def escapeChar (c : Char) : List Char :=
  if c = '&' then "&amp;".toList
  else if c = '<' then "&lt;".toList
  else if c = '>' then "&gt;".toList
  else if c = '"' then "&quot;".toList
  else if c = '\'' then "&#039;".toList
  else [c]

def escapeHtml (s : String) : String :=
  String.mk (s.toList.flatMap escapeChar)

/-- Replace every `<[^>]*>` tag by a single space (a `<` with no later `>`
matches nothing and is kept verbatim, as is everything after it).  Each
step consumes at least one character, so the wrapper's fuel is never
exhausted. -/
def stripTagsGo : Nat → List Char → List Char
  | 0, cs => cs
  | _, [] => []
  | Nat.succ fuel, '<' :: rest =>
    (match firstIdx '>' rest with
     | some k => ' ' :: stripTagsGo fuel (rest.drop (k + 1))
     | none => '<' :: rest)
  | Nat.succ fuel, c :: rest => c :: stripTagsGo fuel rest

def stripTags (cs : List Char) : List Char := stripTagsGo (cs.length + 1) cs

/-- Number of maximal runs of non-whitespace characters; equals the length
of `text.split(/\s+/).filter(w => w.length > 0)`. -/
def wordRunsGo : Nat → List Char → Nat
  | 0, _ => 0
  | _, [] => 0
  | Nat.succ fuel, c :: rest =>
    if jsWs c then wordRunsGo fuel rest
    else 1 + wordRunsGo fuel (rest.dropWhile (fun d => !jsWs d))

def wordRuns (cs : List Char) : Nat := wordRunsGo (cs.length + 1) cs

/-- `countWords`: strip HTML tags to spaces, split on whitespace, count
non-empty chunks (an empty/missing text counts 0, as in the source). -/
def countWords (s : String) : Nat :=
  wordRuns (stripTags s.toList)

/-! ## Backoff Calculator

`calculateBackoff(attempt, baseMs = 2000)` computes `baseMs * 2^attempt`,
adds `Math.random() * 1000` jitter and clamps at 30000.  The random jitter
is modelled as an explicit rational parameter in `[0, 1000)`. -/

def calculateBackoff (attempt : Nat) (baseMs : ℚ) (jitter : ℚ) : ℚ :=
  min (baseMs * 2 ^ attempt + jitter) 30000

/-! ## Circuit Breaker Registry

Per-provider state and the three operations, with `Date.now()` passed
explicitly as a millisecond timestamp. -/

def FAILURE_THRESHOLD : Nat := 3
def RESET_TIMEOUT : Nat := 60000

structure CircuitBreakerState where
  failures : Nat
  lastFailure : Nat
  isOpen : Bool
deriving Repr, DecidableEq

/-- Initial state installed by `getCircuitBreaker` for a fresh provider. -/
def freshBreaker : CircuitBreakerState :=
  { failures := 0, lastFailure := 0, isOpen := false }

def recordFailure (b : CircuitBreakerState) (now : Nat) : CircuitBreakerState :=
  let b' := { b with failures := b.failures + 1, lastFailure := now }
  if FAILURE_THRESHOLD ≤ b'.failures then { b' with isOpen := true } else b'

def recordSuccess (b : CircuitBreakerState) : CircuitBreakerState :=
  { b with failures := 0, isOpen := false }

def isCircuitOpen (b : CircuitBreakerState) (now : Nat) : Bool :=
  if !b.isOpen then false
  else if RESET_TIMEOUT < now - b.lastFailure then false
  else true

/-- Breaker states reachable from a fresh breaker through the two recording
operations (failures may be stamped at arbitrary times). -/
inductive ReachableBreaker : CircuitBreakerState → Prop where
  | fresh : ReachableBreaker freshBreaker
  | fail {b} (now : Nat) : ReachableBreaker b → ReachableBreaker (recordFailure b now)
  | succeed {b} : ReachableBreaker b → ReachableBreaker (recordSuccess b)

/-! ## Response Validator & Healer -/

structure CompletenessVerdict where
  isComplete : Bool
  isTruncated : Bool
  truncationType : String
  details : String
deriving Repr, DecidableEq

/-- `validateResponseCompleteness`: delimiter balance, mandatory-field
substrings, and the final closing brace. -/
def validateResponseCompleteness (responseText : String) : CompletenessVerdict :=
  if (jsTrim responseText).toList.isEmpty then
    { isComplete := false, isTruncated := false, truncationType := "none", details := "Empty response" }
  else
    let trimmed := (jsTrim responseText).toList
    let openBraces := countChar lbrace trimmed
    let closeBraces := countChar rbrace trimmed
    let openBrackets := countChar '[' trimmed
    let closeBrackets := countChar ']' trimmed
    if closeBraces < openBraces ∨ closeBrackets < openBrackets then
      { isComplete := false, isTruncated := true, truncationType := "json",
        details := "JSON imbalance: " ++ toString ((openBraces : ℤ) - closeBraces) ++ " unclosed braces" }
    else if !(listIncludes "\"htmlContent\"".toList trimmed &&
              listIncludes "\"title\"".toList trimmed &&
              listIncludes "\"metaDescription\"".toList trimmed) then
      { isComplete := false, isTruncated := true, truncationType := "content",
        details := "Missing required fields" }
    else if trimmed.getLast? ≠ some rbrace then
      { isComplete := false, isTruncated := true, truncationType := "json",
        details := "Response doesn't end with \x7d" }
    else
      { isComplete := true, isTruncated := false, truncationType := "none",
        details := "Response appears complete" }

structure ParsedResponse where
  success : Bool
  data : Option Json
  error : Option String
  isTruncated : Bool
deriving Repr, BEq

/-- Shared acceptance step of healing strategies 1-5: a parse result is
accepted when it parsed and its `htmlContent` member is truthy. -/
def acceptParse (p : Option Json) (flagTruncated : Bool) : Option ParsedResponse :=
  match p with
  | some j =>
    if fieldTruthy j "htmlContent" then
      some { success := true, data := some j, error := none, isTruncated := flagTruncated }
    else none
  | none => none

/-- Strategy 1: direct parse of the trimmed text. -/
def healStrat1 (text : String) : Option ParsedResponse :=
  acceptParse (jsonParse text) false

/-- Match the regex ```` ```(?:json)?\s*([\s\S]*?)``` ```` at the head of
`cs`: skip the fence, an optional literal `json` tag and whitespace, then
capture lazily up to the next fence. -/
def fenceHereAux : List Char → List Char → Option (List Char)
  | [], _ => none
  | c :: rest, acc =>
    if ['`', '`', '`'].isPrefixOf (c :: rest) then some acc.reverse
    else fenceHereAux rest (c :: acc)

def fenceHere (cs : List Char) : Option (List Char) :=
  if ['`', '`', '`'].isPrefixOf cs then
    let rest := cs.drop 3
    let rest := if ['j', 's', 'o', 'n'].isPrefixOf rest then rest.drop 4 else rest
    fenceHereAux (rest.dropWhile jsWs) []
  else none

/-- Leftmost match of the fenced-code-block regex over the whole text
(the regex engine advances one position at a time). -/
def extractFencedBlock : List Char → Option (List Char)
  | [] => none
  | c :: rest =>
    match fenceHere (c :: rest) with
    | some grp => some grp
    | none => extractFencedBlock rest

/-- Strategy 2: extract from a markdown code block, then parse. -/
def healStrat2 (text : String) : Option ParsedResponse :=
  match extractFencedBlock text.toList with
  | some grp => acceptParse (jsonParse (jsTrim (String.mk grp))) false
  | none => none

/-- Strategy 3: slice between the first `{` and the last `}`, then parse. -/
def healStrat3 (text : String) : Option ParsedResponse :=
  match firstIdx lbrace text.toList, lastIdx rbrace text.toList with
  | some firstBrace, some lastBrace =>
    if firstBrace < lastBrace then
      acceptParse (jsonParse (String.mk ((text.toList.drop firstBrace).take
        (lastBrace - firstBrace + 1)))) false
    else none
  | _, _ => none

/-- Global replace of `,(\s*[}\]])` by the captured group: each match
removes one comma standing (up to whitespace) before a closing delimiter;
scanning resumes after the delimiter, and a non-matching comma is kept. -/
def commaFixAux (cs : List Char) : Option (List Char × Char × List Char) :=
  match cs.dropWhile jsWs with
  | c :: rest => if c = rbrace ∨ c = ']' then some (cs.takeWhile jsWs, c, rest) else none
  | [] => none

def fixTrailingCommasGo : Nat → List Char → List Char
  | 0, cs => cs
  | _, [] => []
  | Nat.succ fuel, ',' :: rest =>
    (match commaFixAux rest with
     | some (ws, c, rest') => ws ++ c :: fixTrailingCommasGo fuel rest'
     | none => ',' :: fixTrailingCommasGo fuel rest)
  | Nat.succ fuel, c :: rest => c :: fixTrailingCommasGo fuel rest

def fixTrailingCommas (cs : List Char) : List Char := fixTrailingCommasGo (cs.length + 1) cs

/-- Strategy 4: strip separators standing before a closing delimiter, then
parse. -/
def healStrat4 (text : String) : Option ParsedResponse :=
  acceptParse (jsonParse (String.mk (fixTrailingCommas text.toList))) false

/-- The closing suffix appended by strategy 5: as many `]` as there are
surplus `[`, followed by as many `}` as there are surplus `{` (raw
character counts over the whole text). -/
def closeTruncated (text : String) : String :=
  let cs := text.toList
  let ob := countChar lbrace cs
  let cb := countChar rbrace cs
  let oB := countChar '[' cs
  let cB := countChar ']' cs
  String.mk (cs ++ List.replicate (oB - cB) ']' ++ List.replicate (ob - cb) rbrace)

/-- Strategy 5: only when the completeness check reports a JSON-type
truncation, close the unmatched delimiters and parse; success is flagged
`isTruncated`. -/
def healStrat5 (text : String) : Option ParsedResponse :=
  let validation := validateResponseCompleteness text
  if validation.isTruncated && validation.truncationType = "json" then
    acceptParse (jsonParse (closeTruncated text)) true
  else none

/-- Scan the regex group `((?:[^"\\]|\\.)*)` up to a closing quote,
returning the raw (still escaped) source text of the group; a backslash
before a line terminator or at the end makes the whole attempt fail. -/
def fieldGroupAux : List Char → List Char → Option (List Char)
  | [], _ => none
  | '"' :: _, acc => some acc.reverse
  | '\\' :: c :: rest, acc =>
    if c = '\n' ∨ c = '\r' then none else fieldGroupAux rest (c :: '\\' :: acc)
  | '\\' :: [], _ => none
  | c :: rest, acc => fieldGroupAux rest (c :: acc)

/-- Try the field-extraction regex `"field"\s*:\s*"((?:[^"\\]|\\.)*)"`
anchored at the current position. -/
def fieldHere (field : List Char) (cs : List Char) : Option (List Char) :=
  if ('"' :: field ++ ['"']).isPrefixOf cs then
    match (cs.drop (field.length + 2)).dropWhile jsWs with
    | ':' :: rest =>
      match rest.dropWhile jsWs with
      | '"' :: rest' => fieldGroupAux rest' []
      | _ => none
    | _ => none
  else none

/-- Leftmost match of the field-extraction regex. -/
def extractFieldAux (field : List Char) : List Char → Option (List Char)
  | [] => none
  | c :: rest =>
    match fieldHere field (c :: rest) with
    | some grp => some grp
    | none => extractFieldAux field rest

def extractField (text : String) (fieldName : String) : Option String :=
  (extractFieldAux fieldName.toList text.toList).map String.mk

/-- Strategy 6: reconstruct a contract from independently extracted fields;
requires truthy `htmlContent` and `title`. -/
def healStrat6 (text : String) : Option ParsedResponse :=
  match extractField text "htmlContent", extractField text "title" with
  | some h, some t =>
    if h ≠ "" ∧ t ≠ "" then
      some { success := true,
             data := some (Json.obj
               [("htmlContent", Json.str h), ("title", Json.str t),
                ("metaDescription", Json.str ((extractField text "metaDescription").getD "")),
                ("slug", Json.str ""), ("excerpt", Json.str ""),
                ("faqs", Json.arr []), ("wordCount", Json.num (countWords h))]),
             error := none, isTruncated := true }
    else none
  | _, _ => none

/-- The hard-failure result when all six strategies fail. -/
def healFailure (text : String) : ParsedResponse :=
  { success := false, data := none,
    error := some ("JSON parse failed. Preview: " ++ String.mk (text.toList.take 150) ++ "..."),
    isTruncated := (validateResponseCompleteness text).isTruncated }

/-- `healJSON`: the six recovery strategies in priority order, first
success wins. -/
def healJSON (rawText : String) : ParsedResponse :=
  if (jsTrim rawText).toList.isEmpty then
    { success := false, data := none, error := some "Empty response text", isTruncated := false }
  else
    let text := jsTrim rawText
    (healStrat1 text <|> healStrat2 text <|> healStrat3 text <|> healStrat4 text <|>
      healStrat5 text <|> healStrat6 text).getD (healFailure text)

/-! ## Provider Gateway (`callLLM`)

The network adapters are abstracted by an `AdapterOutcome`: what the
dispatched adapter would do if invoked.  Per-backend HTTP failures surface
as thrown errors whose message is `"<Label> error <status>"`; a fired
abort controller surfaces as an `AbortError`. -/

inductive AdapterOutcome where
  | success (text : String)
  | aborted
  | httpError (label : String) (status : Nat)
  | otherError (msg : String)
deriving Repr

def knownProviders : List String := ["google", "openrouter", "openai", "anthropic", "groq"]

/-- The catch-block classification: messages containing `429`, `500` or
`503` are recorded against the breaker. -/
def transientMsg (msg : String) : Bool :=
  strIncludes msg "429" || strIncludes msg "500" || strIncludes msg "503"

structure CallResult where
  result : Except String String
  breaker : CircuitBreakerState
  adapterInvoked : Bool
deriving Repr

def callLLM (brk : CircuitBreakerState) (now : Nat) (provider : String)
    (timeoutMs : Nat) (outcome : AdapterOutcome) : CallResult :=
  if isCircuitOpen brk now then
    { result := Except.error ("Circuit breaker OPEN for " ++ provider),
      breaker := brk, adapterInvoked := false }
  else if !(knownProviders.contains provider) then
    let msg := "Unknown provider: " ++ provider
    { result := Except.error msg,
      breaker := if transientMsg msg then recordFailure brk now else brk,
      adapterInvoked := false }
  else
    match outcome with
    | AdapterOutcome.success t =>
      { result := Except.ok t, breaker := recordSuccess brk, adapterInvoked := true }
    | AdapterOutcome.aborted =>
      { result := Except.error ("Request timeout after " ++ toString timeoutMs ++ "ms"),
        breaker := recordFailure brk now, adapterInvoked := true }
    | AdapterOutcome.httpError label status =>
      let msg := label ++ " error " ++ toString status
      { result := Except.error msg,
        breaker := if transientMsg msg then recordFailure brk now else brk,
        adapterInvoked := true }
    | AdapterOutcome.otherError msg =>
      { result := Except.error msg,
        breaker := if transientMsg msg then recordFailure brk now else brk,
        adapterInvoked := true }

/-! ## `removeAllH1Tags` -/

def lowerEq (a b : Char) : Bool := a.toLower = b.toLower

/-- Case-insensitive prefix test. -/
def ciPrefix : List Char → List Char → Bool
  | [], _ => true
  | _, [] => false
  | p :: ps, c :: cs => lowerEq p c && ciPrefix ps cs

/-- Case-insensitive substring test; `hasCI pat cs = false` exactly when
`(cs.match /pat/gi || []).length === 0`. -/
def hasCI (pat : List Char) : List Char → Bool
  | [] => pat.isEmpty
  | c :: rest => ciPrefix pat (c :: rest) || hasCI pat rest

/-- Match `<h1[^>]*>` at the head; returns the rest after the tag. -/
def matchOpenH1 (cs : List Char) : Option (List Char) :=
  if ciPrefix ['<', 'h', '1'] cs then
    let rest := cs.drop 3
    match firstIdx '>' rest with
    | some k => some (rest.drop (k + 1))
    | none => none
  else none

/-- Find the first case-insensitive `</h1>`; returns the rest after it. -/
def findCloseH1 : List Char → Option (List Char)
  | [] => none
  | c :: rest =>
    if ciPrefix ['<', '/', 'h', '1', '>'] (c :: rest) then some (rest.drop 4)
    else findCloseH1 rest

/-- One global pass of `replace(/<h1[^>]*>[\s\S]*?<\/h1>/gi, '')`. -/
def removePairedH1 (fuel : Nat) (cs : List Char) : List Char :=
  match fuel, cs with
  | 0, cs => cs
  | _, [] => []
  | Nat.succ fuel, c :: rest =>
    match (matchOpenH1 (c :: rest)).bind findCloseH1 with
    | some rest' => removePairedH1 fuel rest'
    | none => c :: removePairedH1 fuel rest

def wordChar (c : Char) : Bool :=
  ('a' ≤ c && c ≤ 'z') || ('A' ≤ c && c ≤ 'Z') || ('0' ≤ c && c ≤ '9') || c = '_'

/-- One global pass of `replace(/<h1\b[^>]*>/gi, '')`. -/
def removeOpenH1 (fuel : Nat) (cs : List Char) : List Char :=
  match fuel, cs with
  | 0, cs => cs
  | _, [] => []
  | Nat.succ fuel, c :: rest =>
    let boundaryOk := match cs.drop 3 with
      | [] => true
      | d :: _ => !wordChar d
    match if boundaryOk then matchOpenH1 (c :: rest) else none with
    | some rest' => removeOpenH1 fuel rest'
    | none => c :: removeOpenH1 fuel rest

/-- One global pass of `replace(/<\/h1>/gi, '')`. -/
def removeCloseH1 (fuel : Nat) (cs : List Char) : List Char :=
  match fuel, cs with
  | 0, cs => cs
  | _, [] => []
  | Nat.succ fuel, c :: rest =>
    if ciPrefix ['<', '/', 'h', '1', '>'] (c :: rest) then removeCloseH1 fuel (rest.drop 4)
    else c :: removeCloseH1 fuel rest

/-- `replace(/\n{3,}/g, '\n\n')`: collapse runs of three or more
newlines. -/
def collapseNewlines (fuel : Nat) (cs : List Char) : List Char :=
  match fuel, cs with
  | 0, cs => cs
  | _, [] => []
  | Nat.succ fuel, '\n' :: rest =>
    let run := 1 + (rest.takeWhile (· = '\n')).length
    if 3 ≤ run then '\n' :: '\n' :: collapseNewlines fuel (rest.dropWhile (· = '\n'))
    else '\n' :: collapseNewlines fuel rest
  | Nat.succ fuel, c :: rest => c :: collapseNewlines fuel rest

def removeAllH1Tags (html : String) : String :=
  if html = "" then html
  else
    let cs := html.toList
    if !hasCI ['<', 'h', '1'] cs then html
    else
      let n := cs.length + 1
      let c₁ := removePairedH1 n (removePairedH1 n (removePairedH1 n cs))
      let c₂ := removeOpenH1 n c₁
      let c₃ := removeCloseH1 n c₂
      let c₄ := collapseNewlines n c₃
      String.mk (jsTrimList c₄)

/-! ## Single-Shot Fallback Pipeline (`AIOrchestrator.generate`)

The per-attempt `callLLM` outcome (returned text, or thrown error message)
is abstracted by an oracle `responses : Nat → Except String String`, and
the per-attempt backoff jitter by `jit : Nat → ℚ`.  The run result records
the backoff sleeps actually performed. -/

def MAX_ATTEMPTS : Nat := 3
def MIN_ACCEPTABLE_WORDS : ℚ := 2500

/-- Temperature used at a given attempt:
`min(0.7 + (attempt - 1) * 0.05, 0.9)`. -/
def attemptTemperature (attempt : Nat) : ℚ :=
  min ((7 : ℚ)/10 + ((attempt - 1 : ℕ) : ℚ) * (5/100)) (9/10)

/-- `contract.htmlContent` read as a string (a missing or non-string field
reads as the empty string; every input this model is applied to carries a
string there). -/
def htmlContentStr (j : Json) : String :=
  match getField j "htmlContent" with
  | some (Json.str s) => s
  | _ => ""

/-- `contract.wordCount || countWords(contract.htmlContent)`: a truthy
numeric `wordCount` field wins, otherwise the fallback count.  (A truthy
non-numeric `wordCount` is not modelled; the contracts manipulated here
carry numbers or nothing.) -/
def wordCountOf (j : Json) : ℚ :=
  match getField j "wordCount" with
  | some (Json.num q) => if q ≠ 0 then q else (countWords (htmlContentStr j) : ℚ)
  | _ => (countWords (htmlContentStr j) : ℚ)

/-- Acceptance test of an attempt:
`wordCount >= MIN_ACCEPTABLE_WORDS && contract.htmlContent?.length > 5000`. -/
def acceptB (j : Json) : Bool :=
  let lenOk := match getField j "htmlContent" with
    | some (Json.str s) => decide (5000 < s.length)
    | _ => false
  decide (MIN_ACCEPTABLE_WORDS ≤ wordCountOf j) && lenOk

/-- The in-place mutation performed on an accepted (or best degraded)
contract: strip H1 tags from the body and recompute the word count. -/
def finalizeContract (j : Json) : Json :=
  let cleaned := removeAllH1Tags (htmlContentStr j)
  setField (setField j "htmlContent" (Json.str cleaned)) "wordCount" (Json.num (countWords cleaned))

inductive GenMethod where
  | staged
  | singleShot
  | continuation
deriving Repr, DecidableEq

structure GenResult where
  contract : Json
  generationMethod : GenMethod
  attempts : Nat
deriving Repr, BEq

structure GenRun where
  result : Except String GenResult
  sleeps : List ℚ
deriving Repr

/-- Code after the attempt loop: degraded best-of-N acceptance at the
absolute floor 2000, else the terminal error carrying the last error. -/
def generatePost (lastError : String) (bestResult : Option Json) (bestWordCount : ℚ)
    (sleeps : List ℚ) : GenRun :=
  match bestResult with
  | some b =>
    if 2000 ≤ bestWordCount then
      { result := Except.ok { contract := finalizeContract b,
                              generationMethod := GenMethod.singleShot,
                              attempts := MAX_ATTEMPTS },
        sleeps := sleeps }
    else
      { result := Except.error ("Content generation failed after " ++ toString MAX_ATTEMPTS ++
                                " attempts: " ++ lastError),
        sleeps := sleeps }
  | none =>
    { result := Except.error ("Content generation failed after " ++ toString MAX_ATTEMPTS ++
                              " attempts: " ++ lastError),
      sleeps := sleeps }

/-- The attempt loop of `AIOrchestrator.generate`; `fuel` counts the
remaining iterations (`fuel = MAX_ATTEMPTS - attempt + 1`). -/
def generateGo (responses : Nat → Except String String) (jit : Nat → ℚ) :
    Nat → Nat → String → Option Json → ℚ → List ℚ → GenRun
  | 0, _, lastError, bestResult, bestWordCount, sleeps =>
    generatePost lastError bestResult bestWordCount sleeps
  | Nat.succ fuel, attempt, _, bestResult, bestWordCount, sleeps =>
    match responses attempt with
    | Except.error msg =>
      if strIncludes msg "Circuit breaker" then
        generatePost msg bestResult bestWordCount sleeps
      else if attempt < MAX_ATTEMPTS then
        generateGo responses jit fuel (attempt + 1) msg bestResult bestWordCount
          (sleeps ++ [calculateBackoff (attempt - 1) 2000 (jit attempt)])
      else
        generateGo responses jit fuel (attempt + 1) msg bestResult bestWordCount sleeps
    | Except.ok raw =>
      -- (the loop body's local bindings `parsed`, `contract`, `wordCount`,
      -- `bestResult`, `bestWordCount` are inlined)
      if !(healJSON raw).success then
        if attempt < MAX_ATTEMPTS then
          generateGo responses jit fuel (attempt + 1)
            ((healJSON raw).error.getD "Parse failed") bestResult bestWordCount
            (sleeps ++ [calculateBackoff (attempt - 1) 2000 (jit attempt)])
        else
          generateGo responses jit fuel (attempt + 1)
            ((healJSON raw).error.getD "Parse failed") bestResult bestWordCount sleeps
      else
        if acceptB ((healJSON raw).data.getD Json.null) then
          { result := Except.ok
              { contract := finalizeContract ((healJSON raw).data.getD Json.null),
                generationMethod := GenMethod.singleShot,
                attempts := attempt },
            sleeps := sleeps }
        else
          generateGo responses jit fuel (attempt + 1)
            ("Content too short: " ++
              toString (wordCountOf ((healJSON raw).data.getD Json.null)) ++ " words")
            (if bestWordCount < wordCountOf ((healJSON raw).data.getD Json.null) then
              some ((healJSON raw).data.getD Json.null) else bestResult)
            (if bestWordCount < wordCountOf ((healJSON raw).data.getD Json.null) then
              wordCountOf ((healJSON raw).data.getD Json.null) else bestWordCount)
            sleeps

/-- `AIOrchestrator.generate`. -/
def generate (responses : Nat → Except String String) (jit : Nat → ℚ) : GenRun :=
  generateGo responses jit MAX_ATTEMPTS 1 "" none 0 []

/-! ## Staged pipeline (`AIOrchestrator.generateEnhanced`)

Gateway calls of the individual phases are abstracted by per-phase
outcome oracles.  The HTML/CSS templating collaborators (theme CSS, key
takeaways, FAQ accordion, YouTube embed, references section) are external
formatting utilities outside the orchestration core; they enter the model
as opaque string builders. -/

structure SubsectionSpec where
  heading : String
  keyPoints : List String
deriving Repr, DecidableEq

structure SectionSpec where
  heading : String
  keyPoints : List String
  subsections : List SubsectionSpec
  visualComponents : List String
deriving Repr, DecidableEq

structure ContentOutline where
  title : String
  metaDescription : String
  slug : String
  sections : List SectionSpec
  faqTopics : List String
  keyTakeaways : List String
deriving Repr, DecidableEq

def getStrField (j : Json) (name : String) : String :=
  match getField j name with
  | some (Json.str s) => s
  | _ => ""

def getStrList (j : Json) (name : String) : List String :=
  match getField j name with
  | some (Json.arr xs) => xs.map (fun x => match x with | Json.str s => s | _ => "")
  | _ => []

def decodeSubsection (j : Json) : SubsectionSpec :=
  { heading := getStrField j "heading", keyPoints := getStrList j "keyPoints" }

def decodeSection (j : Json) : SectionSpec :=
  { heading := getStrField j "heading", keyPoints := getStrList j "keyPoints",
    subsections := (match getField j "subsections" with
      | some (Json.arr xs) => xs.map decodeSubsection
      | _ => []),
    visualComponents := getStrList j "visualComponents" }

/-- Reading of the healed outline object through the `ContentOutline`
shape (the source performs an unchecked cast; absent or non-conforming
fields read as empty, making the section-count gate fail). -/
def decodeOutline (j : Json) : ContentOutline :=
  { title := getStrField j "title", metaDescription := getStrField j "metaDescription",
    slug := getStrField j "slug",
    sections := (match getField j "sections" with
      | some (Json.arr xs) => xs.map decodeSection
      | _ => []),
    faqTopics := getStrList j "faqTopics", keyTakeaways := getStrList j "keyTakeaways" }

/-- `generateContentOutline`: one gateway call, healed via `healJSON`,
accepted only with at least 5 sections; a thrown call or a failed parse
yields `null`. -/
def generateContentOutline (outcome : Except String String) : Option ContentOutline :=
  match outcome with
  | Except.error _ => none
  | Except.ok response =>
    let parsed := healJSON response
    match parsed.data with
    | some d =>
      if parsed.success then
        let outline := decodeOutline d
        if 5 ≤ outline.sections.length then some outline else none
      else none
    | none => none

/-- `response.trim().replace(/^```(?:html)?\s*/i, '').replace(/\s*```$/i, '')`. -/
def stripFenceLead (cs : List Char) : List Char :=
  if ['`', '`', '`'].isPrefixOf cs then
    let rest := cs.drop 3
    let rest := if ciPrefix ['h', 't', 'm', 'l'] rest then rest.drop 4 else rest
    rest.dropWhile jsWs
  else cs

def stripFenceTrail (cs : List Char) : List Char :=
  if ['`', '`', '`'].isSuffixOf cs then
    ((cs.take (cs.length - 3)).reverse.dropWhile jsWs).reverse
  else cs

def sectionClean (response : String) : String :=
  String.mk (stripFenceTrail (stripFenceLead (jsTrimList response.toList)))

/-- `response.replace(/^```(?:html)?\s*/i, '').replace(/\s*```$/i, '').trim()`. -/
def introClean (response : String) : String :=
  String.mk (jsTrimList (stripFenceTrail (stripFenceLead response.toList)))

structure SectionGenerationResult where
  success : Bool
  html : String
  wordCount : Nat
  sectionIndex : Nat
  error : Option String
deriving Repr, DecidableEq

/-- `generateSection`: clean the response, reject below 100 words, convert
a thrown call into a failed result. -/
def generateSection (sectionIndex : Nat) (outcome : Except String String) :
    SectionGenerationResult :=
  match outcome with
  | Except.error msg =>
    { success := false, html := "", wordCount := 0, sectionIndex := sectionIndex, error := some msg }
  | Except.ok response =>
    let html := sectionClean response
    let wc := countWords html
    if wc < 100 then
      { success := false, html := "", wordCount := 0, sectionIndex := sectionIndex,
        error := some ("Section too short: " ++ toString wc ++ " words") }
    else
      { success := true, html := html, wordCount := wc, sectionIndex := sectionIndex, error := none }

def sectionPlaceholder (heading : String) : String :=
  "<h2>" ++ escapeHtml heading ++ "</h2><p>[Content for this section could not be generated]</p>"

def BATCH_SIZE : Nat := 2

def defaultSectionSpec : SectionSpec :=
  { heading := "", keyPoints := [], subsections := [], visualComponents := [] }

/-- The Sections-phase batch loop: fixed-size batches, results collected
positionally (`Promise.all` preserves the order of its argument array, so
completion order within a batch is irrelevant), failures replaced by the
heading placeholder, and the completed-section count reported after each
batch. -/
def sectionBatchesGo (allSecs : List SectionSpec) (outcomes : Nat → Except String String) :
    Nat → List SectionSpec → Nat → List String → List Nat → List String × List Nat
  | 0, _, _, secAcc, progAcc => (secAcc.reverse, progAcc.reverse)
  | _, [], _, secAcc, progAcc => (secAcc.reverse, progAcc.reverse)
  | Nat.succ fuel, s :: rest, i, secAcc, progAcc =>
    let batch := (s :: rest).take BATCH_SIZE
    let batchResults :=
      (List.range batch.length).map (fun bi => generateSection (i + bi) (outcomes (i + bi)))
    let secAcc' := batchResults.foldl (fun acc r =>
      (if r.success && r.html ≠ "" then r.html
       else sectionPlaceholder ((allSecs.getD r.sectionIndex defaultSectionSpec).heading)) :: acc)
      secAcc
    sectionBatchesGo allSecs outcomes fuel ((s :: rest).drop BATCH_SIZE) (i + BATCH_SIZE)
      secAcc' (secAcc'.length :: progAcc)

def runSectionBatches (secs : List SectionSpec) (outcomes : Nat → Except String String) :
    List String × List Nat :=
  sectionBatchesGo secs outcomes (secs.length + 1) secs 0 [] []

/-- External formatting collaborators consumed by the staged pipeline
(spec §6: pure functions on finished text, outside the orchestration
core), plus the results of the best-effort enrichment lookups. -/
structure StagedCollaborators where
  css : String
  mkKeyTakeaways : List String → String
  mkFAQAccordion : List (String × String) → String
  ytEmbed : Option String
  referencesSection : Option String

/-- `generateFAQSection`: cleaned response, or the accordion fallback built
from the topics on a thrown call. -/
def generateFAQSection (faqTopics : List String) (outcome : Except String String)
    (col : StagedCollaborators) : String :=
  match outcome with
  | Except.ok response => sectionClean response
  | Except.error _ =>
    col.mkFAQAccordion (faqTopics.map (fun q => (q, "[Answer for: " ++ q ++ "]")))

def apos : String := String.mk [Char.ofNat 39]

def introFallback (topic : String) : String :=
  "<p>" ++ escapeHtml topic ++ " is a topic that deserves careful attention. In this guide, you" ++
    apos ++ "ll learn everything you need to know.</p>"

def conclusionFallback (topic : String) : String :=
  "<h2>Conclusion</h2><p>Now you have all the tools you need to succeed with " ++
    escapeHtml topic ++ ". Take action today!</p>"

structure EnhancedInputs where
  outlineCall : Except String String
  sectionCalls : Nat → Except String String
  faqCall : Except String String
  introCall : Except String String
  conclusionCall : Except String String
  fallbackResponses : Nat → Except String String
  fallbackJitter : Nat → ℚ

structure EnhancedRun where
  result : Except String GenResult
  sleeps : List ℚ
  sectionEntries : List String
  sectionsProgress : List Nat
  contentParts : List String

/-- The fallback hand-off `return this.generate(config, log)` (no staged
observables). -/
def enhancedFallback (inp : EnhancedInputs) : EnhancedRun :=
  let run := generate inp.fallbackResponses inp.fallbackJitter
  { result := run.result, sleeps := run.sleeps, sectionEntries := [],
    sectionsProgress := [], contentParts := [] }

/-- The staged branch of `generateEnhanced` — stages 2-5 once an outline
has been accepted. -/
def stagedRun (col : StagedCollaborators) (inp : EnhancedInputs) (topic : String)
    (outline : ContentOutline) : EnhancedRun :=
  let secsProg := runSectionBatches outline.sections inp.sectionCalls
  let sections := secsProg.1
  let faqHtml := generateFAQSection outline.faqTopics inp.faqCall col
  let introHtml := match inp.introCall with
    | Except.ok r => introClean r
    | Except.error _ => introFallback topic
  let conclusionHtml := match inp.conclusionCall with
    | Except.ok r => introClean r
    | Except.error _ => conclusionFallback topic
  let parts := [col.css, "<div class=\"wpo-content\">", introHtml]
    ++ (match col.ytEmbed with | some y => [y] | none => [])
    ++ (sections
    ++ ([col.mkKeyTakeaways outline.keyTakeaways, faqHtml]
    ++ ((match col.referencesSection with | some r => [r] | none => [])
    ++ [conclusionHtml, "</div>"])))
  let assembled := removeAllH1Tags (String.intercalate "\n\n" parts)
  let contract := Json.obj
    [("title", Json.str outline.title),
     ("metaDescription", Json.str outline.metaDescription),
     ("slug", Json.str outline.slug),
     ("htmlContent", Json.str assembled),
     ("excerpt", Json.str outline.metaDescription),
     ("faqs", Json.arr (outline.faqTopics.map (fun q =>
        Json.obj [("question", Json.str q), ("answer", Json.str "")]))),
     ("wordCount", Json.num (countWords assembled))]
  { result := Except.ok { contract := contract, generationMethod := GenMethod.staged,
                          attempts := 1 },
    sleeps := [], sectionEntries := sections, sectionsProgress := secsProg.2,
    contentParts := parts }

/-- `AIOrchestrator.generateEnhanced` (modelled with no configured internal
links — link injection is an external collaborator, spec §6). -/
def generateEnhanced (col : StagedCollaborators) (inp : EnhancedInputs) (topic : String) :
    EnhancedRun :=
  match generateContentOutline inp.outlineCall with
  | none => enhancedFallback inp
  | some outline =>
    if outline.sections.length < 5 then enhancedFallback inp
    else stagedRun col inp topic outline

/-! ## Closed forms for the Sections-phase batch loop -/

/-- `[i, i+1, ..., i+n-1]`. -/
def idxRange : Nat → Nat → List Nat
  | _, 0 => []
  | i, Nat.succ n => i :: idxRange (i + 1) n

/-- The single-section outcome of the batch loop body: the produced HTML on
success, the heading placeholder otherwise. -/
def sectionEntry (allSecs : List SectionSpec) (outcomes : Nat → Except String String)
    (i : Nat) : String :=
  let r := generateSection i (outcomes i)
  if r.success && r.html ≠ "" then r.html
  else sectionPlaceholder ((allSecs.getD r.sectionIndex defaultSectionSpec).heading)

/-- Completed-section counts reported after each batch of (up to) 2,
starting from `c` already-completed sections over `n` remaining ones. -/
def batchProgressFrom : Nat → Nat → List Nat
  | _, 0 => []
  | c, 1 => [c + 1]
  | c, Nat.succ (Nat.succ n) => (c + 2) :: batchProgressFrom (c + 2) n

theorem idxRange_length (i n : Nat) : (idxRange i n).length = n := by
  induction n generalizing i with
  | zero => rfl
  | succ n ih => simp [idxRange, ih]

theorem sectionBatchesGo_spec (allSecs : List SectionSpec)
    (outcomes : Nat → Except String String) :
    ∀ (fuel : Nat) (remaining : List SectionSpec) (i : Nat) (secAcc : List String)
      (progAcc : List Nat), remaining.length ≤ fuel →
      sectionBatchesGo allSecs outcomes fuel remaining i secAcc progAcc =
        (secAcc.reverse ++ (idxRange i remaining.length).map (sectionEntry allSecs outcomes),
         progAcc.reverse ++ batchProgressFrom secAcc.length remaining.length)
  | fuel, [], i, secAcc, progAcc, _ => by
    cases fuel <;> simp [sectionBatchesGo, idxRange, batchProgressFrom]
  | 0, s :: rest, i, secAcc, progAcc, h => by
    simp at h
  | Nat.succ fuel, [s], i, secAcc, progAcc, h => by
    have hstep : sectionBatchesGo allSecs outcomes (Nat.succ fuel) [s] i secAcc progAcc =
        sectionBatchesGo allSecs outcomes fuel [] (i + BATCH_SIZE)
          (sectionEntry allSecs outcomes i :: secAcc)
          ((sectionEntry allSecs outcomes i :: secAcc).length :: progAcc) := rfl
    rw [hstep, sectionBatchesGo_spec allSecs outcomes fuel [] (i + BATCH_SIZE)
      (sectionEntry allSecs outcomes i :: secAcc)
      ((sectionEntry allSecs outcomes i :: secAcc).length :: progAcc) (by simp)]
    simp [idxRange, batchProgressFrom]
  | Nat.succ fuel, s₁ :: s₂ :: rest, i, secAcc, progAcc, h => by
    have hstep : sectionBatchesGo allSecs outcomes (Nat.succ fuel) (s₁ :: s₂ :: rest) i
          secAcc progAcc =
        sectionBatchesGo allSecs outcomes fuel rest (i + BATCH_SIZE)
          (sectionEntry allSecs outcomes (i + 1) :: sectionEntry allSecs outcomes i :: secAcc)
          ((sectionEntry allSecs outcomes (i + 1) :: sectionEntry allSecs outcomes i ::
            secAcc).length :: progAcc) := rfl
    rw [hstep, sectionBatchesGo_spec allSecs outcomes fuel rest (i + BATCH_SIZE)
      (sectionEntry allSecs outcomes (i + 1) :: sectionEntry allSecs outcomes i :: secAcc)
      ((sectionEntry allSecs outcomes (i + 1) :: sectionEntry allSecs outcomes i ::
        secAcc).length :: progAcc) (by simp at h ⊢; omega)]
    simp [idxRange, batchProgressFrom, BATCH_SIZE, List.append_assoc]

/-! # Theorems -/

/-! ## C9: Backoff Calculator bounds and monotonicity -/

/-- C9: for every attempt `n` and non-negative base, with jitter in
`[0, 1000)`, the backoff delay lies between `baseMs * 2^n` and
`baseMs * 2^n + 1000`, both clamped at 30000 ms; the pre-jitter pre-clamp
value `baseMs * 2^n` is monotonically non-decreasing in `n`.  (The
function is a pure total function: no side effects, no failure mode.) -/
theorem c9_backoff_bounds (n : Nat) (baseMs jitter : ℚ)
    (hbase : 0 ≤ baseMs) (hj0 : 0 ≤ jitter) (hj1 : jitter < 1000) :
    min (baseMs * 2 ^ n) 30000 ≤ calculateBackoff n baseMs jitter ∧
    calculateBackoff n baseMs jitter ≤ min (baseMs * 2 ^ n + 1000) 30000 ∧
    calculateBackoff n baseMs jitter ≤ 30000 ∧
    baseMs * 2 ^ n ≤ baseMs * 2 ^ (n + 1) := by
  unfold calculateBackoff
  have hpow : (0 : ℚ) ≤ baseMs * 2 ^ n :=
    mul_nonneg hbase (pow_nonneg (by norm_num) n)
  refine ⟨?_, ?_, min_le_right _ _, ?_⟩
  · exact min_le_min (by linarith) le_rfl
  · exact min_le_min (by linarith) le_rfl
  · rw [pow_succ]
    nlinarith

/-- Witness for C9 at attempt 2, base 2000 ms, jitter 500. -/
theorem c9_backoff_bounds_witness :
    ((0 : ℚ) ≤ 2000 ∧ (0 : ℚ) ≤ 500 ∧ (500 : ℚ) < 1000) ∧
    (min ((2000 : ℚ) * 2 ^ 2) 30000 ≤ calculateBackoff 2 2000 500 ∧
     calculateBackoff 2 2000 500 ≤ min ((2000 : ℚ) * 2 ^ 2 + 1000) 30000 ∧
     calculateBackoff 2 2000 500 ≤ 30000 ∧
     (2000 : ℚ) * 2 ^ 2 ≤ 2000 * 2 ^ (2 + 1)) :=
  ⟨⟨by norm_num, by norm_num, by norm_num⟩,
   c9_backoff_bounds 2 2000 500 (by norm_num) (by norm_num) (by norm_num)⟩

/-! ## C4: breaker threshold, reset, and open-implies-threshold invariant -/

theorem recordFailure_characterization (b : CircuitBreakerState) (t : Nat)
    (hOpen : b.isOpen = decide (FAILURE_THRESHOLD ≤ b.failures)) :
    (recordFailure b t).failures = b.failures + 1 ∧
    (recordFailure b t).isOpen = decide (FAILURE_THRESHOLD ≤ b.failures + 1) := by
  unfold recordFailure
  by_cases h : FAILURE_THRESHOLD ≤ b.failures + 1
  · simp [h]
  · have h' : ¬ FAILURE_THRESHOLD ≤ b.failures := by omega
    simp [h, hOpen, h']

theorem foldFailures_characterization (times : List Nat) (b : CircuitBreakerState)
    (hOpen : b.isOpen = decide (FAILURE_THRESHOLD ≤ b.failures)) :
    (times.foldl recordFailure b).failures = b.failures + times.length ∧
    (times.foldl recordFailure b).isOpen =
      decide (FAILURE_THRESHOLD ≤ b.failures + times.length) := by
  induction times generalizing b with
  | nil => simpa using hOpen
  | cons t ts ih =>
    simp only [List.foldl_cons, List.length_cons]
    obtain ⟨h1, h2⟩ := recordFailure_characterization b t hOpen
    have h2' : (recordFailure b t).isOpen =
        decide (FAILURE_THRESHOLD ≤ (recordFailure b t).failures) := by
      rw [h2, h1]
    obtain ⟨ih1, ih2⟩ := ih (recordFailure b t) h2'
    constructor
    · rw [ih1, h1]; omega
    · rw [ih2, h1]
      have he : b.failures + 1 + ts.length = b.failures + (ts.length + 1) := by omega
      rw [he]

/-- C4: starting from a fresh breaker, after `n` recorded failures the
failure count is `n` and the breaker is open exactly when `n` has reached
the threshold 3; `recordSuccess` resets the count to 0 and closes the
breaker; and in every state reachable through the two recording
operations, the breaker being open implies the failure count is at least
the threshold. -/
theorem c4_breaker_threshold :
    (∀ times : List Nat,
      (times.foldl recordFailure freshBreaker).failures = times.length ∧
      (times.foldl recordFailure freshBreaker).isOpen =
        decide (FAILURE_THRESHOLD ≤ times.length)) ∧
    (∀ b : CircuitBreakerState,
      (recordSuccess b).failures = 0 ∧ (recordSuccess b).isOpen = false) ∧
    (∀ b : CircuitBreakerState, ReachableBreaker b → b.isOpen = true →
      FAILURE_THRESHOLD ≤ b.failures) := by
  refine ⟨?_, ?_, ?_⟩
  · intro times
    have h := foldFailures_characterization times freshBreaker (by decide)
    simpa [freshBreaker] using h
  · intro b
    exact ⟨rfl, rfl⟩
  · intro b hreach
    induction hreach with
    | fresh => intro h; exact absurd h (by decide)
    | fail now _ ih =>
      intro hopen
      rename_i b' _
      unfold recordFailure at hopen ⊢
      by_cases h : FAILURE_THRESHOLD ≤ b'.failures + 1
      · simp [h]
      · simp only [if_neg h] at hopen ⊢
        have := ih hopen
        omega
    | succeed _ ih =>
      intro hopen
      exact absurd hopen (by simp [recordSuccess])

/-- Witness for C4's reachability invariant at a breaker opened by three
recorded failures. -/
theorem c4_breaker_threshold_witness :
    ReachableBreaker (recordFailure (recordFailure (recordFailure freshBreaker 1) 2) 3) ∧
    (recordFailure (recordFailure (recordFailure freshBreaker 1) 2) 3).isOpen = true ∧
    FAILURE_THRESHOLD ≤
      (recordFailure (recordFailure (recordFailure freshBreaker 1) 2) 3).failures := by
  have hr : ReachableBreaker (recordFailure (recordFailure (recordFailure freshBreaker 1) 2) 3) :=
    ReachableBreaker.fail 3 (ReachableBreaker.fail 2 (ReachableBreaker.fail 1 ReachableBreaker.fresh))
  exact ⟨hr, by decide, c4_breaker_threshold.2.2 _ hr (by decide)⟩

/-! ## C5: breaker gating of Gateway calls (corrected)

Rejection within the reset window holds as claimed, but the source
enforces no single-trial limit: once the window has elapsed,
`isCircuitOpen` keeps returning `false` for every call until some outcome
is recorded, so any number of calls can pass the gate before the trial's
outcome lands. -/

/-- C5 counterexample: a breaker opened by three failures at time 0; at
times 60001 and 60002, both calls (made against the same still-unrecorded
state, as with overlapping in-flight calls) reach the network adapter —
not "exactly one trial call", and nothing re-gates until an outcome is
recorded. -/
theorem c5_counterexample :
    (callLLM (recordFailure (recordFailure (recordFailure freshBreaker 0) 0) 0)
        60001 "groq" 180000 (AdapterOutcome.success "t")).adapterInvoked = true ∧
    (callLLM (recordFailure (recordFailure (recordFailure freshBreaker 0) 0) 0)
        60002 "groq" 180000 (AdapterOutcome.success "t")).adapterInvoked = true ∧
    (recordFailure (recordFailure (recordFailure freshBreaker 0) 0) 0).isOpen = true := by
  exact ⟨by decide, by decide, by decide⟩

/-- C5 (amended): while the breaker is open and `now - lastFailure` is
within the 60 s reset window, every Gateway call is rejected immediately —
no adapter invoked, state unchanged; once the window has elapsed, calls
are let through to the adapter — every such call, not just one, until an
outcome is recorded; a recorded failure re-stamps the failure time and
keeps the breaker open, re-gating calls for a fresh window, and a recorded
success closes the breaker. -/
theorem c5_breaker_gating :
    (∀ (b : CircuitBreakerState) (now : Nat) (p : String) (t : Nat) (o : AdapterOutcome),
      isCircuitOpen b now = true →
      callLLM b now p t o =
        { result := Except.error ("Circuit breaker OPEN for " ++ p),
          breaker := b, adapterInvoked := false }) ∧
    (∀ (b : CircuitBreakerState) (now : Nat),
      b.isOpen = true → now - b.lastFailure ≤ RESET_TIMEOUT → isCircuitOpen b now = true) ∧
    (∀ (b : CircuitBreakerState) (now : Nat) (p : String) (t : Nat) (o : AdapterOutcome),
      RESET_TIMEOUT < now - b.lastFailure → knownProviders.contains p = true →
      (callLLM b now p t o).adapterInvoked = true) ∧
    (∀ (b : CircuitBreakerState) (now now₂ : Nat),
      FAILURE_THRESHOLD ≤ b.failures + 1 → now ≤ now₂ → now₂ - now ≤ RESET_TIMEOUT →
      isCircuitOpen (recordFailure b now) now₂ = true) ∧
    (∀ (b : CircuitBreakerState) (now₂ : Nat), isCircuitOpen (recordSuccess b) now₂ = false) := by
  refine ⟨?_, ?_, ?_, ?_, ?_⟩
  · intro b now p t o hopen
    unfold callLLM
    rw [hopen]
    rfl
  · intro b now hopen hwin
    unfold isCircuitOpen
    rw [hopen]
    simp only [Bool.not_true, Bool.false_eq_true, if_false]
    rw [if_neg (by omega)]
  · intro b now p t o hwin hp
    unfold callLLM
    have hgate : isCircuitOpen b now = false := by
      unfold isCircuitOpen
      by_cases hb : b.isOpen
      · rw [hb]
        simp only [Bool.not_true, Bool.false_eq_true, if_false]
        rw [if_pos (by omega)]
      · simp [hb]
    rw [hgate]
    simp only [Bool.false_eq_true, if_false, hp, Bool.not_true]
    cases o <;> rfl
  · intro b now now₂ hth hle hwin
    unfold recordFailure isCircuitOpen
    rw [if_pos hth]
    simp only [Bool.not_true, Bool.false_eq_true, if_false]
    rw [if_neg (by omega)]
  · intro b now₂
    unfold recordSuccess isCircuitOpen
    simp

/-- Witness for C5 (amended) at a concrete opened breaker, inside and
outside the window. -/
theorem c5_breaker_gating_witness :
    (isCircuitOpen { failures := 3, lastFailure := 0, isOpen := true } 30000 = true ∧
     callLLM { failures := 3, lastFailure := 0, isOpen := true } 30000 "groq" 180000
        (AdapterOutcome.success "t") =
       { result := Except.error "Circuit breaker OPEN for groq",
         breaker := { failures := 3, lastFailure := 0, isOpen := true },
         adapterInvoked := false }) ∧
    (RESET_TIMEOUT < 60001 - ({ failures := 3, lastFailure := 0, isOpen := true } :
        CircuitBreakerState).lastFailure ∧
     (callLLM { failures := 3, lastFailure := 0, isOpen := true } 60001 "groq" 180000
        (AdapterOutcome.success "t")).adapterInvoked = true) := by
  refine ⟨⟨by decide, ?_⟩, by decide, ?_⟩
  · have h := c5_breaker_gating.1 { failures := 3, lastFailure := 0, isOpen := true }
      30000 "groq" 180000 (AdapterOutcome.success "t") (by decide)
    rw [h]
    rfl
  · exact c5_breaker_gating.2.2.1 { failures := 3, lastFailure := 0, isOpen := true }
      60001 "groq" 180000 (AdapterOutcome.success "t") (by decide) (by decide)

/-! ## C6: gateway breaker bookkeeping per outcome (corrected)

Success and timeout bookkeeping hold as claimed, but "any 5xx status" does
not: the catch block tests the message for the substrings `429`, `500` and
`503` only, so e.g. a 502 or 504 response leaves the breaker untouched. -/

/-- C6 counterexample: an HTTP 502 failure (a 5xx status) propagates with
no breaker state change — `recordFailure` would have incremented the
failure count. -/
theorem c6_counterexample :
    (callLLM freshBreaker 0 "openrouter" 180000
        (AdapterOutcome.httpError "OpenRouter" 502)).breaker = freshBreaker ∧
    (callLLM freshBreaker 0 "openrouter" 180000
        (AdapterOutcome.httpError "OpenRouter" 502)).result =
      Except.error "OpenRouter error 502" ∧
    (recordFailure freshBreaker 0).failures ≠ freshBreaker.failures := by
  refine ⟨by decide, by rfl, by decide⟩

/-- C6 (amended): with the gate closed and a known provider, a successful
return records a success; a timeout raises the Timeout error and records a
failure; an HTTP failure is recorded against the breaker exactly when its
message contains `429`, `500` or `503` (i.e. statuses 429, 500, 503 —
other 5xx such as 502/504 are not recorded); all other failures, including
an unknown provider name, propagate with no breaker change. -/
theorem c6_gateway_bookkeeping :
    (∀ (b : CircuitBreakerState) (now : Nat) (p : String) (t : Nat) (txt : String),
      isCircuitOpen b now = false → knownProviders.contains p = true →
      callLLM b now p t (AdapterOutcome.success txt) =
        { result := Except.ok txt, breaker := recordSuccess b, adapterInvoked := true }) ∧
    (∀ (b : CircuitBreakerState) (now : Nat) (p : String) (t : Nat),
      isCircuitOpen b now = false → knownProviders.contains p = true →
      callLLM b now p t AdapterOutcome.aborted =
        { result := Except.error ("Request timeout after " ++ toString t ++ "ms"),
          breaker := recordFailure b now, adapterInvoked := true }) ∧
    (∀ (b : CircuitBreakerState) (now : Nat) (p : String) (t : Nat)
        (label : String) (status : Nat),
      isCircuitOpen b now = false → knownProviders.contains p = true →
      callLLM b now p t (AdapterOutcome.httpError label status) =
        { result := Except.error (label ++ " error " ++ toString status),
          breaker := if transientMsg (label ++ " error " ++ toString status)
                     then recordFailure b now else b,
          adapterInvoked := true }) ∧
    (transientMsg "OpenRouter error 429" = true ∧
     transientMsg "OpenAI error 500" = true ∧
     transientMsg "Anthropic error 503" = true ∧
     transientMsg "Groq error 502" = false ∧
     transientMsg "Groq error 504" = false ∧
     transientMsg "OpenAI error 401" = false ∧
     transientMsg "OpenAI error 404" = false) ∧
    (∀ (b : CircuitBreakerState) (now : Nat) (t : Nat) (o : AdapterOutcome),
      isCircuitOpen b now = false →
      callLLM b now "nosuchbackend" t o =
        { result := Except.error "Unknown provider: nosuchbackend",
          breaker := b, adapterInvoked := false }) := by
  refine ⟨?_, ?_, ?_, ?_, ?_⟩
  · intro b now p t txt hgate hp
    have hp' : p ∈ knownProviders := by simpa using hp
    unfold callLLM
    rw [hgate]
    simp [hp']
  · intro b now p t hgate hp
    have hp' : p ∈ knownProviders := by simpa using hp
    unfold callLLM
    rw [hgate]
    simp [hp']
  · intro b now p t label status hgate hp
    have hp' : p ∈ knownProviders := by simpa using hp
    unfold callLLM
    rw [hgate]
    simp [hp']
  · exact ⟨by decide, by decide, by decide, by decide, by decide, by decide, by decide⟩
  · intro b now t o hgate
    unfold callLLM
    rw [hgate]
    have hnk : ¬ ("nosuchbackend" ∈ knownProviders) := by decide
    have htr : transientMsg "Unknown provider: nosuchbackend" = false := by decide
    simp [hnk, htr]

/-- Witness for C6 (amended) at a fresh breaker: success, timeout, a
recorded 500 and an unrecorded 502. -/
theorem c6_gateway_bookkeeping_witness :
    (isCircuitOpen freshBreaker 5 = false ∧ knownProviders.contains "openai" = true) ∧
    callLLM freshBreaker 5 "openai" 90000 (AdapterOutcome.success "hello") =
      { result := Except.ok "hello", breaker := recordSuccess freshBreaker,
        adapterInvoked := true } ∧
    callLLM freshBreaker 5 "openai" 90000 AdapterOutcome.aborted =
      { result := Except.error "Request timeout after 90000ms",
        breaker := recordFailure freshBreaker 5, adapterInvoked := true } ∧
    callLLM freshBreaker 5 "openai" 90000 (AdapterOutcome.httpError "OpenAI" 500) =
      { result := Except.error "OpenAI error 500",
        breaker := if transientMsg "OpenAI error 500" then recordFailure freshBreaker 5
                   else freshBreaker,
        adapterInvoked := true } := by
  refine ⟨⟨by decide, by decide⟩, ?_, ?_, ?_⟩
  · exact c6_gateway_bookkeeping.1 freshBreaker 5 "openai" 90000 "hello" (by decide) (by decide)
  · have h := c6_gateway_bookkeeping.2.1 freshBreaker 5 "openai" 90000 (by decide) (by decide)
    simpa using h
  · exact c6_gateway_bookkeeping.2.2.1 freshBreaker 5 "openai" 90000 "OpenAI" 500
      (by decide) (by decide)

/-! ## C7: healing strategies in strict priority order -/

/-- The six strategies as an ordered list, for stating the priority
order independently of `healJSON`'s control flow. -/
def healStratList (text : String) : List (Option ParsedResponse) :=
  [healStrat1 text, healStrat2 text, healStrat3 text, healStrat4 text,
   healStrat5 text, healStrat6 text]

/-- A concrete response wrapped in a fenced code block around otherwise
valid structured text. -/
def fencedExample : String :=
  "Sure!\n```json\n\x7b\"htmlContent\":\"body text\",\"title\":\"T\"\x7d\n```"

def fencedExampleResult : ParsedResponse :=
  { success := true,
    data := some (Json.obj [("htmlContent", Json.str "body text"), ("title", Json.str "T")]),
    error := none, isTruncated := false }

/-- C7: on non-empty input, `healJSON` returns the result of the first
strategy (in the order 1-6) that succeeds, a strategy being tried only
when all earlier ones returned nothing (failed to parse, or parsed
without a truthy body field); if all six fail the result is the hard
failure carrying the 150-character preview of the text; and on the
concrete fenced-block example strategy 1 fails, strategy 2 succeeds, and
`healJSON` returns exactly strategy 2's result. -/
theorem c7_healing_priority :
    (∀ (raw : String) (k : Nat) (r : ParsedResponse),
      (jsTrim raw).toList.isEmpty = false →
      ((healStratList (jsTrim raw)).take k).all Option.isNone = true →
      (healStratList (jsTrim raw)).getD k none = some r →
      healJSON raw = r) ∧
    (∀ raw : String,
      (jsTrim raw).toList.isEmpty = false →
      (healStratList (jsTrim raw)).all Option.isNone = true →
      healJSON raw = healFailure (jsTrim raw)) ∧
    (healStrat1 (jsTrim fencedExample) = none ∧
     healStrat2 (jsTrim fencedExample) = some fencedExampleResult ∧
     healJSON fencedExample = fencedExampleResult) := by
  refine ⟨?_, ?_, ?_, ?_, ?_⟩
  · intro raw k r hne htake hget
    unfold healJSON
    rw [hne]
    simp only [Bool.false_eq_true, if_false]
    match k with
    | 0 =>
      simp only [healStratList, List.getD_cons_zero] at hget
      simp [hget]
    | 1 =>
      simp only [healStratList, List.take, List.all_cons, List.all_nil,
        Bool.and_true, Option.isNone_iff_eq_none] at htake
      simp only [healStratList, List.getD_cons_succ, List.getD_cons_zero] at hget
      simp [htake, hget]
    | 2 =>
      simp only [healStratList, List.take, List.all_cons, List.all_nil,
        Bool.and_true, Option.isNone_iff_eq_none, Bool.and_eq_true] at htake
      simp only [healStratList, List.getD_cons_succ, List.getD_cons_zero] at hget
      simp [htake.1, htake.2, hget]
    | 3 =>
      simp only [healStratList, List.take, List.all_cons, List.all_nil,
        Bool.and_true, Option.isNone_iff_eq_none, Bool.and_eq_true] at htake
      simp only [healStratList, List.getD_cons_succ, List.getD_cons_zero] at hget
      simp [htake.1, htake.2.1, htake.2.2, hget]
    | 4 =>
      simp only [healStratList, List.take, List.all_cons, List.all_nil,
        Bool.and_true, Option.isNone_iff_eq_none, Bool.and_eq_true] at htake
      simp only [healStratList, List.getD_cons_succ, List.getD_cons_zero] at hget
      simp [htake.1, htake.2.1, htake.2.2.1, htake.2.2.2, hget]
    | 5 =>
      simp only [healStratList, List.take, List.all_cons, List.all_nil,
        Bool.and_true, Option.isNone_iff_eq_none, Bool.and_eq_true] at htake
      simp only [healStratList, List.getD_cons_succ, List.getD_cons_zero] at hget
      simp [htake.1, htake.2.1, htake.2.2.1, htake.2.2.2.1, htake.2.2.2.2, hget]
    | (n + 6) =>
      simp only [healStratList, List.getD_cons_succ] at hget
      simp [List.getD] at hget
  · intro raw hne hall
    unfold healJSON
    rw [hne]
    simp only [Bool.false_eq_true, if_false]
    simp only [healStratList, List.all_cons, List.all_nil, Bool.and_true,
      Option.isNone_iff_eq_none, Bool.and_eq_true] at hall
    obtain ⟨h1, h2, h3, h4, h5, h6⟩ := hall
    simp [h1, h2, h3, h4, h5, h6]
  · rfl
  · rfl
  · rfl

/-- Witness for C7 on the fenced example at strategy index 1. -/
theorem c7_healing_priority_witness :
    ((jsTrim fencedExample).toList.isEmpty = false ∧
     ((healStratList (jsTrim fencedExample)).take 1).all Option.isNone = true ∧
     (healStratList (jsTrim fencedExample)).getD 1 none = some fencedExampleResult) ∧
    healJSON fencedExample = fencedExampleResult :=
  ⟨⟨by decide, by decide, by rfl⟩,
   c7_healing_priority.1 fencedExample 1 fencedExampleResult (by decide) (by decide) (by rfl)⟩

/-! ## C8: truncation-closing strategy (corrected)

Strategy 5 appends exactly the surplus counts of each delimiter kind, but
always all `]` before all `\x7d`; that is the correct nesting order only
when every unmatched bracket is nested inside the unmatched braces (as in
the two-braces-one-bracket example).  For an interleaved truncation such
as an unclosed object inside an unclosed array, the appended order is
wrong and the strategy fails even though a correctly ordered closing
exists. -/

/-- Every `acceptParse` success wraps a parsed value with a truthy body
field, with the given truncation flag. -/
theorem acceptParse_some (p : Option Json) (f : Bool) (r : ParsedResponse)
    (h : acceptParse p f = some r) :
    ∃ j, p = some j ∧ fieldTruthy j "htmlContent" = true ∧
      r = { success := true, data := some j, error := none, isTruncated := f } := by
  rcases p with _ | j
  · exact absurd h (by simp [acceptParse])
  · simp only [acceptParse] at h
    by_cases ht : fieldTruthy j "htmlContent" = true
    · rw [if_pos ht] at h
      exact ⟨j, rfl, ht, (Option.some.inj h).symm⟩
    · rw [if_neg ht] at h
      exact absurd h (by simp)

/-- Strategy 5's boolean gate, unfolded to the two propositional facts. -/
theorem strat5_gate (text : String) :
    ((validateResponseCompleteness text).isTruncated &&
      decide ((validateResponseCompleteness text).truncationType = "json")) = true ↔
    ((validateResponseCompleteness text).isTruncated = true ∧
     (validateResponseCompleteness text).truncationType = "json") := by
  simp

/-- A truncated response whose unmatched delimiters are interleaved:
an unclosed object inside an unclosed array inside the root object. -/
def interleavedTruncation : String := "\x7b\"htmlContent\":\"x\",\"a\":[\x7b\"b\":1"

/-- A truncated response missing exactly two closing braces and one
closing bracket, the bracket innermost. -/
def nestedTruncation : String := "\x7b\"htmlContent\":\"x\",\"q\":\x7b\"r\":[1,2"

/-- C8 counterexample: on the interleaved truncation the healer appends
`]\x7d\x7d` (all brackets before all braces), which is not the correct
nesting order `\x7d]\x7d` — the latter parses, the former does not, and
strategy 5 fails. -/
theorem c8_counterexample :
    closeTruncated interleavedTruncation = interleavedTruncation ++ "]\x7d\x7d" ∧
    jsonParse (closeTruncated interleavedTruncation) = none ∧
    jsonParse (interleavedTruncation ++ "\x7d]\x7d") =
      some (Json.obj [("htmlContent", Json.str "x"),
                      ("a", Json.arr [Json.obj [("b", Json.num 1)]])]) ∧
    healStrat5 interleavedTruncation = none ∧
    (healJSON interleavedTruncation).success = false := by
  refine ⟨by rfl, by rfl, by rfl, by rfl, by rfl⟩

/-- C8 (amended): strategy 5 appends exactly
`opening-bracket surplus` many `]` followed by `opening-brace surplus`
many `\x7d` (raw character counts), runs only when the completeness check
reports a JSON-type truncation, and a success from it carries the parse
of the closed text and is flagged `isTruncated = true`; this closing order
is correct whenever the unmatched brackets are innermost — in particular
the input missing exactly 2 closing braces and 1 closing bracket gets
exactly those three closers appended and parses successfully. -/
theorem c8_truncation_closing :
    (∀ text : String,
      (closeTruncated text).toList =
        text.toList ++
          List.replicate (countChar '[' text.toList - countChar ']' text.toList) ']' ++
          List.replicate (countChar lbrace text.toList - countChar rbrace text.toList) rbrace) ∧
    (∀ (text : String) (r : ParsedResponse), healStrat5 text = some r →
      r.isTruncated = true ∧ r.success = true ∧ r.data = jsonParse (closeTruncated text)) ∧
    (∀ text : String,
      ¬((validateResponseCompleteness text).isTruncated = true ∧
        (validateResponseCompleteness text).truncationType = "json") →
      healStrat5 text = none) ∧
    (closeTruncated nestedTruncation = nestedTruncation ++ "]\x7d\x7d" ∧
     healJSON nestedTruncation =
       { success := true,
         data := some (Json.obj
           [("htmlContent", Json.str "x"),
            ("q", Json.obj [("r", Json.arr [Json.num 1, Json.num 2])])]),
         error := none, isTruncated := true }) := by
  refine ⟨?_, ?_, ?_, by rfl, ?_⟩
  · intro text
    simp [closeTruncated]
  · intro text r h
    simp only [healStrat5] at h
    by_cases hg : (validateResponseCompleteness text).isTruncated = true ∧
        (validateResponseCompleteness text).truncationType = "json"
    · rw [if_pos ((strat5_gate text).mpr hg)] at h
      obtain ⟨j, hp, _, rfl⟩ := acceptParse_some _ _ _ h
      exact ⟨rfl, rfl, hp.symm⟩
    · rw [if_neg (fun hc => hg ((strat5_gate text).mp hc))] at h
      exact absurd h (by simp)
  · intro text hng
    simp only [healStrat5]
    rw [if_neg (fun hc => hng ((strat5_gate text).mp hc))]
  · rfl

/-! ## C10: a successful heal always carries a non-empty body -/

theorem healStrat1_body {text : String} {r : ParsedResponse} (h : healStrat1 text = some r) :
    r.success = true ∧ ∃ j, r.data = some j ∧ fieldTruthy j "htmlContent" = true := by
  obtain ⟨j, _, ht, rfl⟩ := acceptParse_some _ _ _ h
  exact ⟨rfl, j, rfl, ht⟩

theorem healStrat2_body {text : String} {r : ParsedResponse} (h : healStrat2 text = some r) :
    r.success = true ∧ ∃ j, r.data = some j ∧ fieldTruthy j "htmlContent" = true := by
  unfold healStrat2 at h
  rcases he : extractFencedBlock text.toList with _ | grp <;> rw [he] at h
  · exact absurd h (by simp)
  · obtain ⟨j, _, ht, rfl⟩ := acceptParse_some _ _ _ h
    exact ⟨rfl, j, rfl, ht⟩

theorem healStrat3_body {text : String} {r : ParsedResponse} (h : healStrat3 text = some r) :
    r.success = true ∧ ∃ j, r.data = some j ∧ fieldTruthy j "htmlContent" = true := by
  unfold healStrat3 at h
  split at h
  · split at h
    · obtain ⟨j, _, ht, rfl⟩ := acceptParse_some _ _ _ h
      exact ⟨rfl, j, rfl, ht⟩
    · exact absurd h (by simp)
  · exact absurd h (by simp)

theorem healStrat4_body {text : String} {r : ParsedResponse} (h : healStrat4 text = some r) :
    r.success = true ∧ ∃ j, r.data = some j ∧ fieldTruthy j "htmlContent" = true := by
  obtain ⟨j, _, ht, rfl⟩ := acceptParse_some _ _ _ h
  exact ⟨rfl, j, rfl, ht⟩

theorem healStrat5_body {text : String} {r : ParsedResponse} (h : healStrat5 text = some r) :
    r.success = true ∧ ∃ j, r.data = some j ∧ fieldTruthy j "htmlContent" = true := by
  simp only [healStrat5] at h
  by_cases hg : ((validateResponseCompleteness text).isTruncated &&
      decide ((validateResponseCompleteness text).truncationType = "json")) = true
  · rw [if_pos hg] at h
    obtain ⟨j, _, ht, rfl⟩ := acceptParse_some _ _ _ h
    exact ⟨rfl, j, rfl, ht⟩
  · rw [if_neg hg] at h
    exact absurd h (by simp)

theorem healStrat6_body {text : String} {r : ParsedResponse} (h : healStrat6 text = some r) :
    r.success = true ∧ ∃ j, r.data = some j ∧ fieldTruthy j "htmlContent" = true := by
  unfold healStrat6 at h
  split at h
  next hc ti =>
    split at h
    next hne =>
      rw [← Option.some.inj h]
      refine ⟨rfl, _, rfl, ?_⟩
      simp [fieldTruthy, getField, truthy, hne.1]
    next => exact absurd h (by simp)
  next => exact absurd h (by simp)

/-- C10 (implicit invariant): whenever `healJSON` reports success, the
recovered data is present and carries a truthy `htmlContent` body — every
one of the six strategies checks the body field before accepting, so a
successful `ParsedResponse` never has an empty or missing body. -/
theorem c10_success_has_body (raw : String) (h : (healJSON raw).success = true) :
    ∃ j, (healJSON raw).data = some j ∧ fieldTruthy j "htmlContent" = true := by
  by_cases hemp : (jsTrim raw).toList.isEmpty = true
  · have hJ : healJSON raw =
        { success := false, data := none, error := some "Empty response text",
          isTruncated := false } := by
      unfold healJSON
      rw [if_pos hemp]
    rw [hJ] at h
    exact absurd h (by simp)
  · have hJ : healJSON raw =
        (healStrat1 (jsTrim raw) <|> healStrat2 (jsTrim raw) <|> healStrat3 (jsTrim raw) <|>
          healStrat4 (jsTrim raw) <|> healStrat5 (jsTrim raw) <|>
          healStrat6 (jsTrim raw)).getD (healFailure (jsTrim raw)) := by
      unfold healJSON
      rw [if_neg hemp]
    rw [hJ] at h ⊢
    rcases h1 : healStrat1 (jsTrim raw) with _ | r1
    · rcases h2 : healStrat2 (jsTrim raw) with _ | r2
      · rcases h3 : healStrat3 (jsTrim raw) with _ | r3
        · rcases h4 : healStrat4 (jsTrim raw) with _ | r4
          · rcases h5 : healStrat5 (jsTrim raw) with _ | r5
            · rcases h6 : healStrat6 (jsTrim raw) with _ | r6
              · simp only [h1, h2, h3, h4, h5, h6, Option.none_orElse,
                  Option.getD_none] at h
                exact absurd h (by simp [healFailure])
              · simp only [h1, h2, h3, h4, h5, h6, Option.none_orElse,
                  Option.getD_some] at h ⊢
                exact (healStrat6_body h6).2.elim fun j hj => ⟨j, hj⟩
            · simp only [h1, h2, h3, h4, h5, Option.none_orElse, Option.some_orElse,
                Option.getD_some] at h ⊢
              exact (healStrat5_body h5).2.elim fun j hj => ⟨j, hj⟩
          · simp only [h1, h2, h3, h4, Option.none_orElse, Option.some_orElse,
              Option.getD_some] at h ⊢
            exact (healStrat4_body h4).2.elim fun j hj => ⟨j, hj⟩
        · simp only [h1, h2, h3, Option.none_orElse, Option.some_orElse,
            Option.getD_some] at h ⊢
          exact (healStrat3_body h3).2.elim fun j hj => ⟨j, hj⟩
      · simp only [h1, h2, Option.none_orElse, Option.some_orElse,
          Option.getD_some] at h ⊢
        exact (healStrat2_body h2).2.elim fun j hj => ⟨j, hj⟩
    · simp only [h1, Option.some_orElse, Option.getD_some] at h ⊢
      exact (healStrat1_body h1).2.elim fun j hj => ⟨j, hj⟩

/-- Witness for C10 on a directly parsable response. -/
theorem c10_success_has_body_witness :
    (healJSON "\x7b\"htmlContent\":\"x\"\x7d").success = true ∧
    ∃ j, (healJSON "\x7b\"htmlContent\":\"x\"\x7d").data = some j ∧
      fieldTruthy j "htmlContent" = true :=
  ⟨by rfl, c10_success_has_body _ (by rfl)⟩

/-- Witness for C8 (amended) on the nested truncation example. -/
theorem c8_truncation_closing_witness :
    healStrat5 nestedTruncation =
      some { success := true,
             data := some (Json.obj
               [("htmlContent", Json.str "x"),
                ("q", Json.obj [("r", Json.arr [Json.num 1, Json.num 2])])]),
             error := none, isTruncated := true } ∧
    ((healStrat5 nestedTruncation).getD (healFailure nestedTruncation)).isTruncated = true ∧
    ((healStrat5 nestedTruncation).getD (healFailure nestedTruncation)).success = true :=
  ⟨by rfl,
   (c8_truncation_closing.2.1 nestedTruncation _ (by rfl)).1,
   (c8_truncation_closing.2.1 nestedTruncation _ (by rfl)).2.1⟩

/-! ## C1 and C3: staged pipeline -/

/-- An accepted outline always has at least 5 sections. -/
theorem generateContentOutline_min (outcome : Except String String)
    (outline : ContentOutline) (h : generateContentOutline outcome = some outline) :
    5 ≤ outline.sections.length := by
  rcases outcome with msg | resp
  · exact absurd h (by simp [generateContentOutline])
  · simp only [generateContentOutline] at h
    split at h
    · split at h
      · split at h
        next h5 =>
          rw [← Option.some.inj h]
          exact h5
        next => exact absurd h (by simp)
      · exact absurd h (by simp)
    · exact absurd h (by simp)

/-- Every successful result of the single-shot pipeline is labelled
`single-shot` with at most `MAX_ATTEMPTS` attempts. -/
theorem generatePost_shape (lastError : String) (best : Option Json) (bw : ℚ)
    (sleeps : List ℚ) (res : GenResult)
    (h : (generatePost lastError best bw sleeps).result = Except.ok res) :
    res.generationMethod = GenMethod.singleShot ∧ res.attempts = MAX_ATTEMPTS := by
  unfold generatePost at h
  split at h
  next b =>
    split at h
    · simp only [Except.ok.injEq] at h
      rw [← h]
      exact ⟨rfl, rfl⟩
    · exact absurd h (by simp)
  next => exact absurd h (by simp)

theorem generateGo_shape (responses : Nat → Except String String) (jit : Nat → ℚ) :
    ∀ (fuel attempt : Nat) (lastError : String) (best : Option Json) (bw : ℚ)
      (sleeps : List ℚ) (res : GenResult),
      attempt + fuel = MAX_ATTEMPTS + 1 →
      (generateGo responses jit fuel attempt lastError best bw sleeps).result = Except.ok res →
      res.generationMethod = GenMethod.singleShot ∧ res.attempts ≤ MAX_ATTEMPTS := by
  intro fuel
  induction fuel with
  | zero =>
    intro attempt lastError best bw sleeps res _ h
    obtain ⟨hm, ha⟩ := generatePost_shape _ _ _ _ _ h
    exact ⟨hm, le_of_eq ha⟩
  | succ fuel ih =>
    intro attempt lastError best bw sleeps res hsum h
    unfold generateGo at h
    split at h
    · split at h
      · obtain ⟨hm, ha⟩ := generatePost_shape _ _ _ _ _ h
        exact ⟨hm, le_of_eq ha⟩
      · split at h
        · exact ih (attempt + 1) _ _ _ _ _ (by omega) h
        · exact ih (attempt + 1) _ _ _ _ _ (by omega) h
    · split at h
      · split at h
        · exact ih (attempt + 1) _ _ _ _ _ (by omega) h
        · exact ih (attempt + 1) _ _ _ _ _ (by omega) h
      · split at h
        · simp only [Except.ok.injEq] at h
          rw [← h]
          refine ⟨rfl, ?_⟩
          simp only [MAX_ATTEMPTS] at hsum ⊢
          omega
        · exact ih (attempt + 1) _ _ _ _ _ (by omega) h

/-- C3: whenever the Outline phase fails — a thrown call, an unparsable
response, or an accepted parse with fewer than 5 sections — the
orchestrator never enters the Sections phase: the run is exactly the
single-shot fallback, no section oracle is consulted and no sections
progress is reported, and any successful result carries method
`single-shot`; in particular a parsed outline with fewer than 5 sections
(such as 3) yields `generateContentOutline = none` and triggers this
escape. -/
theorem c3_outline_escape :
    (∀ (col : StagedCollaborators) (inp : EnhancedInputs) (topic : String),
      generateContentOutline inp.outlineCall = none →
      generateEnhanced col inp topic = enhancedFallback inp ∧
      (generateEnhanced col inp topic).sectionEntries = [] ∧
      (generateEnhanced col inp topic).sectionsProgress = [] ∧
      (generateEnhanced col inp topic).result =
        (generate inp.fallbackResponses inp.fallbackJitter).result ∧
      (∀ res, (generateEnhanced col inp topic).result = Except.ok res →
        res.generationMethod = GenMethod.singleShot ∧ res.attempts ≤ MAX_ATTEMPTS)) ∧
    (∀ msg, generateContentOutline (Except.error msg) = none) ∧
    (∀ resp : String,
      (∀ d, (healJSON resp).data = some d → (decodeOutline d).sections.length < 5) →
      generateContentOutline (Except.ok resp) = none) := by
  refine ⟨?_, ?_, ?_⟩
  · intro col inp topic hnone
    have hfall : generateEnhanced col inp topic = enhancedFallback inp := by
      unfold generateEnhanced
      rw [hnone]
    refine ⟨hfall, by rw [hfall]; rfl, by rw [hfall]; rfl, by rw [hfall]; rfl, ?_⟩
    intro res hres
    rw [hfall] at hres
    have hres' : (generate inp.fallbackResponses inp.fallbackJitter).result =
        Except.ok res := hres
    unfold generate at hres'
    exact generateGo_shape _ _ MAX_ATTEMPTS 1 "" none 0 [] res (by omega) hres'
  · intro msg
    rfl
  · intro resp hsmall
    simp only [generateContentOutline]
    split
    next d hd =>
      have hlt := hsmall d hd
      by_cases hs : (healJSON resp).success = true
      · rw [if_pos hs, if_neg (by omega)]
      · rw [if_neg hs]
    next => rfl

theorem runSectionBatches_spec (secs : List SectionSpec)
    (outcomes : Nat → Except String String) :
    runSectionBatches secs outcomes =
      ((idxRange 0 secs.length).map (sectionEntry secs outcomes),
       batchProgressFrom 0 secs.length) := by
  unfold runSectionBatches
  rw [sectionBatchesGo_spec secs outcomes (secs.length + 1) secs 0 [] [] (by omega)]
  simp

theorem infix_mid (a b c s : List String) : s <:+: a ++ (b ++ (s ++ c)) :=
  ⟨a ++ b, c, by simp [List.append_assoc]⟩

/-- C1: for every accepted outline, the staged run succeeds with method
`staged` (one attempt); the Sections phase produces exactly one entry per
outline section, in outline order — the produced HTML when the call
succeeded with enough words, the heading-only placeholder when it threw or
fell below the minimum word count (positional collection makes completion
order within a batch irrelevant); the entries appear contiguously inside
the assembled document parts; and progress is reported after each
fixed-size-2 batch as the cumulative completed count. -/
theorem c1_staged_sections (col : StagedCollaborators) (inp : EnhancedInputs)
    (topic : String) (outline : ContentOutline)
    (hout : generateContentOutline inp.outlineCall = some outline) :
    (∃ res, (generateEnhanced col inp topic).result = Except.ok res ∧
      res.generationMethod = GenMethod.staged ∧ res.attempts = 1) ∧
    (generateEnhanced col inp topic).sectionEntries =
      (idxRange 0 outline.sections.length).map
        (sectionEntry outline.sections inp.sectionCalls) ∧
    (generateEnhanced col inp topic).sectionEntries.length = outline.sections.length ∧
    (generateEnhanced col inp topic).sectionEntries <:+:
      (generateEnhanced col inp topic).contentParts ∧
    (generateEnhanced col inp topic).sectionsProgress =
      batchProgressFrom 0 outline.sections.length := by
  have h5 := generateContentOutline_min _ _ hout
  have hne : ¬ outline.sections.length < 5 := by omega
  have hrun : generateEnhanced col inp topic = stagedRun col inp topic outline := by
    unfold generateEnhanced
    simp only [hout]
    rw [if_neg hne]
  have hsec : (stagedRun col inp topic outline).sectionEntries =
      (idxRange 0 outline.sections.length).map
        (sectionEntry outline.sections inp.sectionCalls) := by
    show (runSectionBatches outline.sections inp.sectionCalls).1 = _
    rw [runSectionBatches_spec]
  refine ⟨?_, ?_, ?_, ?_, ?_⟩
  · rw [hrun]
    exact ⟨_, rfl, rfl, rfl⟩
  · rw [hrun, hsec]
  · rw [hrun, hsec]
    simp [idxRange_length]
  · rw [hrun]
    have hparts : (stagedRun col inp topic outline).contentParts =
        ([col.css, "<div class=\"wpo-content\">",
          (match inp.introCall with
           | Except.ok r => introClean r
           | Except.error _ => introFallback topic)] ++
         (match col.ytEmbed with | some y => [y] | none => [])) ++
        ((stagedRun col inp topic outline).sectionEntries ++
         ([col.mkKeyTakeaways outline.keyTakeaways,
           generateFAQSection outline.faqTopics inp.faqCall col] ++
          ((match col.referencesSection with | some r => [r] | none => []) ++
           [(match inp.conclusionCall with
             | Except.ok r => introClean r
             | Except.error _ => conclusionFallback topic), "</div>"]))) := by
      simp only [stagedRun, List.append_assoc]
    exact ⟨_, _, by rw [hparts, List.append_assoc]⟩
  · rw [hrun]
    show (runSectionBatches outline.sections inp.sectionCalls).2 = _
    rw [runSectionBatches_spec]

/-- An 8-section outline response accepted by the outline phase. -/
def c1OutlineRaw : String :=
  "\x7b\"htmlContent\":\"ok\",\"title\":\"T\",\"metaDescription\":\"M\",\"slug\":\"s\"," ++
  "\"sections\":[\x7b\"heading\":\"H0\"\x7d,\x7b\"heading\":\"H1\"\x7d,\x7b\"heading\":\"H2\"\x7d," ++
  "\x7b\"heading\":\"H3\"\x7d,\x7b\"heading\":\"H4\"\x7d,\x7b\"heading\":\"H5\"\x7d," ++
  "\x7b\"heading\":\"H6\"\x7d,\x7b\"heading\":\"H7\"\x7d]," ++
  "\"faqTopics\":[\"Q1?\"],\"keyTakeaways\":[\"K\"]\x7d"

def c1Sec (h : String) : SectionSpec :=
  { heading := h, keyPoints := [], subsections := [], visualComponents := [] }

def c1Outline : ContentOutline :=
  { title := "T", metaDescription := "M", slug := "s",
    sections := [c1Sec "H0", c1Sec "H1", c1Sec "H2", c1Sec "H3", c1Sec "H4", c1Sec "H5",
                 c1Sec "H6", c1Sec "H7"],
    faqTopics := ["Q1?"], keyTakeaways := ["K"] }

/-- A successful section body of 121 words. -/
def c1SecHtml : String := "<h2>sec</h2> " ++ String.intercalate " " (List.replicate 120 "lorem")

/-- Section calls: section 2 throws, section 5 returns a too-short body,
all others succeed. -/
def c1SecCalls : Nat → Except String String
  | 2 => Except.error "timeout"
  | 5 => Except.ok "too short"
  | _ => Except.ok c1SecHtml

def c1Col : StagedCollaborators :=
  { css := "CSS", mkKeyTakeaways := fun _ => "KT", mkFAQAccordion := fun _ => "FAQFB",
    ytEmbed := none, referencesSection := none }

def c1Inp : EnhancedInputs :=
  { outlineCall := Except.ok c1OutlineRaw,
    sectionCalls := c1SecCalls,
    faqCall := Except.ok "FAQ",
    introCall := Except.ok "INTRO",
    conclusionCall := Except.ok "CONC",
    fallbackResponses := fun _ => Except.error "unused",
    fallbackJitter := fun _ => 0 }

/-- Witness for C1: 8 sections, calls 2 and 5 failing, yield 8 entries in
order with heading-only placeholders at positions 2 and 5, method
`staged`, and per-batch progress 2, 4, 6, 8. -/
theorem c1_staged_sections_witness :
    generateContentOutline c1Inp.outlineCall = some c1Outline ∧
    (∃ res, (generateEnhanced c1Col c1Inp "Topic").result = Except.ok res ∧
      res.generationMethod = GenMethod.staged ∧ res.attempts = 1) ∧
    (generateEnhanced c1Col c1Inp "Topic").sectionEntries.length = 8 ∧
    (generateEnhanced c1Col c1Inp "Topic").sectionEntries.getD 0 "" = sectionClean c1SecHtml ∧
    (generateEnhanced c1Col c1Inp "Topic").sectionEntries.getD 2 "" = sectionPlaceholder "H2" ∧
    (generateEnhanced c1Col c1Inp "Topic").sectionEntries.getD 5 "" = sectionPlaceholder "H5" ∧
    (generateEnhanced c1Col c1Inp "Topic").sectionsProgress = [2, 4, 6, 8] := by
  have hout : generateContentOutline c1Inp.outlineCall = some c1Outline := by rfl
  have h := c1_staged_sections c1Col c1Inp "Topic" c1Outline hout
  refine ⟨hout, h.1, ?_, ?_, ?_, ?_, ?_⟩
  · rw [h.2.2.1]
    rfl
  · rw [h.2.1]
    rfl
  · rw [h.2.1]
    rfl
  · rw [h.2.1]
    rfl
  · rw [h.2.2.2.2]
    rfl

/-! ## C2: the single-shot fallback pipeline (corrected)

The concrete accepted attempt of the spec's end-to-end example needs a
document body longer than 5000 characters; the facts about it are
established by induction on the body length rather than by evaluation. -/

def c2BodyList : List Char := List.replicate 5001 'a'

def c2Body : String := String.mk c2BodyList

def c2Pre : List Char := "\"htmlContent\":".toList

def c2Suf : List Char := ",\"wordCount\":3000\x7d".toList

def c2List : List Char :=
  lbrace :: (c2Pre ++ ('"' :: (c2BodyList ++ ('"' :: c2Suf))))

/-- The third attempt's response: a 5001-character body and word count
3000. -/
def c2Raw3 : String := String.mk c2List

def c2Raw1 : String := "\x7b\"htmlContent\":\"x\",\"wordCount\":1200\x7d"

def c2Raw2 : String := "\x7b\"htmlContent\":\"x\",\"wordCount\":1800\x7d"

def c2J3 : Json := Json.obj [("htmlContent", Json.str c2Body), ("wordCount", Json.num 3000)]

def c2Responses : Nat → Except String String
  | 1 => Except.ok c2Raw1
  | 2 => Except.ok c2Raw2
  | _ => Except.ok c2Raw3

theorem parseStringAux_step_a (l acc : List Char) :
    parseStringAux ('a' :: l) acc = parseStringAux l ('a' :: acc) := rfl

theorem parseStringAux_step_quote (rest acc : List Char) :
    parseStringAux ('"' :: rest) acc = some (acc.reverse, rest) := rfl

theorem parseStringAux_replicate (n : Nat) (rest acc : List Char) :
    parseStringAux (List.replicate n 'a' ++ ('"' :: rest)) acc =
      some (acc.reverse ++ List.replicate n 'a', rest) := by
  induction n generalizing acc with
  | zero =>
    rw [List.replicate_zero, List.nil_append, List.append_nil, parseStringAux_step_quote]
  | succ n ih =>
    rw [List.replicate_succ, List.cons_append, parseStringAux_step_a, ih]
    simp [List.replicate_succ, List.append_assoc]

theorem parseValue_bodyString (fuel n : Nat) (rest : List Char) :
    parseValue (fuel + 1) ('"' :: (List.replicate n 'a' ++ ('"' :: rest))) =
      some (Json.str (String.mk (List.replicate n 'a')), rest) := by
  rw [show parseValue (fuel + 1) ('"' :: (List.replicate n 'a' ++ ('"' :: rest))) =
      (parseJsonString (List.replicate n 'a' ++ ('"' :: rest))).map
        (fun p => (Json.str p.1, p.2)) from rfl]
  unfold parseJsonString
  rw [parseStringAux_replicate]
  simp

theorem parseMembers_key_htmlContent (fuel : Nat) (tail : List Char)
    (acc : List (String × Json)) :
    parseMembers (fuel + 1) (c2Pre ++ tail) acc =
      (match parseValue fuel tail with
       | some (v, rest₃) =>
         match skipWs rest₃ with
         | ',' :: rest₄ => parseMembers fuel rest₄ (("htmlContent", v) :: acc)
         | c :: rest₄ =>
           if c = rbrace then some ((("htmlContent", v) :: acc).reverse, rest₄) else none
         | [] => none
       | none => none) := rfl

theorem c2_parseMembers (fuel : Nat) (acc : List (String × Json)) :
    parseMembers (fuel + 3) (c2Pre ++ ('"' :: (c2BodyList ++ ('"' :: c2Suf)))) acc =
      some ((("wordCount", Json.num ((3000 : ℕ) : ℚ)) ::
             ("htmlContent", Json.str c2Body) :: acc).reverse, []) := by
  rw [show (fuel + 3) = (fuel + 2) + 1 from rfl, parseMembers_key_htmlContent]
  rw [show c2BodyList = List.replicate 5001 'a' from rfl]
  rw [show (fuel + 2) = (fuel + 1) + 1 from rfl, parseValue_bodyString]
  rfl

theorem parseValue_obj_c2Pre (fuel : Nat) (tail : List Char) :
    parseValue (fuel + 1) (lbrace :: (c2Pre ++ tail)) =
      (match parseMembers fuel (c2Pre ++ tail) [] with
       | some (kvs, rest) => some (Json.obj kvs, rest)
       | none => none) := rfl

theorem jsonParse_def (s : String) :
    jsonParse s =
      (match parseValue (4 * s.toList.length + 8) s.toList with
       | some (j, rest) => if skipWs rest = [] then some j else none
       | none => none) := rfl

theorem c2_jsonParse : jsonParse c2Raw3 = some c2J3 := by
  rw [jsonParse_def]
  rw [show c2Raw3.toList = c2List from rfl]
  rw [show (4 * c2List.length + 8) = (4 * c2List.length + 7) + 1 from rfl]
  nth_rewrite 2 [show c2List = lbrace :: (c2Pre ++ ('"' :: (c2BodyList ++ ('"' :: c2Suf)))) from rfl]
  rw [parseValue_obj_c2Pre]
  rw [show (4 * c2List.length + 7) = (4 * c2List.length + 4) + 3 from rfl]
  rw [c2_parseMembers]
  rfl

theorem dropWhile_eq_self_of_head (p : Char → Bool) (cs : List Char)
    (h : ∀ c, cs.head? = some c → p c = false) : cs.dropWhile p = cs := by
  cases cs with
  | nil => rfl
  | cons c rest =>
    rw [List.dropWhile_cons_of_neg]
    simp [h c rfl]

theorem jsTrimList_eq_self (cs : List Char)
    (h1 : ∀ c, cs.head? = some c → jsWs c = false)
    (h2 : ∀ c, cs.getLast? = some c → jsWs c = false) :
    jsTrimList cs = cs := by
  unfold jsTrimList
  rw [dropWhile_eq_self_of_head _ _ h1]
  rw [dropWhile_eq_self_of_head _ cs.reverse (fun c hc => h2 c (by rwa [List.head?_reverse] at hc))]
  exact List.reverse_reverse cs

theorem c2_trim : jsTrim c2Raw3 = c2Raw3 := by
  unfold jsTrim
  rw [show c2Raw3.toList = c2List from rfl]
  rw [jsTrimList_eq_self]
  · rfl
  · intro c hc
    rw [show c2List.head? = some lbrace from rfl] at hc
    cases hc
    rfl
  · intro c hc
    have hre : c2List = (lbrace :: (c2Pre ++ ('"' :: c2BodyList))) ++ ('"' :: c2Suf) := rfl
    rw [hre] at hc
    rw [List.getLast?_append_of_ne_nil _ (List.cons_ne_nil _ _)] at hc
    rw [show (('"' :: c2Suf) : List Char).getLast? = some rbrace from rfl] at hc
    cases hc
    rfl

theorem c2_heal : healJSON c2Raw3 =
    { success := true, data := some c2J3, error := none, isTruncated := false } := by
  unfold healJSON
  rw [c2_trim]
  rw [if_neg (by rw [show c2Raw3.toList.isEmpty = false from rfl]; simp)]
  show (healStrat1 c2Raw3 <|> healStrat2 c2Raw3 <|> healStrat3 c2Raw3 <|> healStrat4 c2Raw3 <|>
      healStrat5 c2Raw3 <|> healStrat6 c2Raw3).getD (healFailure c2Raw3) =
    { success := true, data := some c2J3, error := none, isTruncated := false }
  rw [show healStrat1 c2Raw3 = acceptParse (jsonParse c2Raw3) false from rfl]
  rw [c2_jsonParse]
  rfl

theorem c2Body_length : c2Body.length = 5001 := by
  rw [show c2Body.length = c2BodyList.length from rfl]
  unfold c2BodyList
  rw [List.length_replicate]

theorem c2_acceptB : acceptB c2J3 = true := by
  unfold acceptB
  rw [show getField c2J3 "htmlContent" = some (Json.str c2Body) from rfl]
  rw [show wordCountOf c2J3 = ((3000 : ℕ) : ℚ) from rfl]
  rw [show (decide (MIN_ACCEPTABLE_WORDS ≤ ((3000 : ℕ) : ℚ))) = true from by decide]
  show (true && decide (5000 < c2Body.length)) = true
  rw [c2Body_length]
  rfl

theorem hasCI_h1_replicate (n : Nat) :
    hasCI ['<', 'h', '1'] (List.replicate n 'a') = false := by
  induction n with
  | zero => rfl
  | succ n ih =>
    rw [List.replicate_succ]
    show (ciPrefix ['<', 'h', '1'] ('a' :: List.replicate n 'a') ||
      hasCI ['<', 'h', '1'] (List.replicate n 'a')) = false
    rw [ih]
    rfl

theorem c2_removeH1 : removeAllH1Tags c2Body = c2Body := by
  have hh : hasCI ['<', 'h', '1'] c2Body.data = false := by
    rw [show c2Body.data = List.replicate 5001 'a' from rfl]
    exact hasCI_h1_replicate 5001
  unfold removeAllH1Tags
  rw [if_neg (by
    intro hc
    have h1 : c2Body.length = 0 := by rw [hc]; rfl
    rw [c2Body_length] at h1
    exact absurd h1 (by decide))]
  simp [hh]

theorem dropWhile_nonws_replicate (n : Nat) :
    (List.replicate n 'a').dropWhile (fun d => !jsWs d) = [] := by
  induction n with
  | zero => rfl
  | succ n ih =>
    rw [List.replicate_succ, List.dropWhile_cons_of_pos (by rfl)]
    exact ih

theorem stripTagsGo_replicate (fuel n : Nat) (h : n ≤ fuel) :
    stripTagsGo fuel (List.replicate n 'a') = List.replicate n 'a' := by
  induction n generalizing fuel with
  | zero =>
    rw [List.replicate_zero]
    cases fuel <;> rfl
  | succ n ih =>
    obtain ⟨f, rfl⟩ : ∃ f, fuel = f + 1 := ⟨fuel - 1, by omega⟩
    rw [List.replicate_succ]
    show 'a' :: stripTagsGo f (List.replicate n 'a') = 'a' :: List.replicate n 'a'
    rw [ih f (by omega)]

theorem wordRunsGo_nil (fuel : Nat) : wordRunsGo fuel [] = 0 := by
  cases fuel <;> rfl

theorem wordRunsGo_cons_a (fuel : Nat) (rest : List Char) :
    wordRunsGo (fuel + 1) ('a' :: rest) =
      1 + wordRunsGo fuel (rest.dropWhile (fun d => !jsWs d)) := rfl

theorem c2_countWords : countWords c2Body = 1 := by
  show wordRuns (stripTags c2Body.toList) = 1
  rw [show c2Body.toList = List.replicate 5001 'a' from rfl]
  unfold stripTags
  rw [stripTagsGo_replicate _ 5001 (by rw [List.length_replicate]; omega)]
  unfold wordRuns
  rw [show (List.replicate 5001 'a' : List Char) = 'a' :: List.replicate 5000 'a' from rfl]
  rw [wordRunsGo_cons_a]
  rw [dropWhile_nonws_replicate, wordRunsGo_nil]

/-- The parsed contract of the first attempt (word count 1200). -/
def c2J1 : Json := Json.obj [("htmlContent", Json.str "x"), ("wordCount", Json.num 1200)]

/-- The parsed contract of the second attempt (word count 1800). -/
def c2J2 : Json := Json.obj [("htmlContent", Json.str "x"), ("wordCount", Json.num 1800)]

theorem c2_heal1 : healJSON c2Raw1 =
    { success := true, data := some c2J1, error := none, isTruncated := false } := rfl

theorem c2_heal2 : healJSON c2Raw2 =
    { success := true, data := some c2J2, error := none, isTruncated := false } := rfl

theorem c2_finalize : finalizeContract c2J3 =
    Json.obj [("htmlContent", Json.str c2Body), ("wordCount", Json.num ((1 : ℕ) : ℚ))] := by
  show setField (setField c2J3 "htmlContent"
      (Json.str (removeAllH1Tags (htmlContentStr c2J3)))) "wordCount"
      (Json.num (countWords (removeAllH1Tags (htmlContentStr c2J3)))) = _
  rw [show htmlContentStr c2J3 = c2Body from rfl]
  rw [c2_removeH1, c2_countWords]
  rfl

theorem generateGo_step_breaker (responses : Nat → Except String String) (jit : Nat → ℚ)
    (fuel attempt : Nat) (lastError : String) (best : Option Json) (bw : ℚ)
    (sleeps : List ℚ) (msg : String)
    (herr : responses attempt = Except.error msg)
    (hbr : strIncludes msg "Circuit breaker" = true) :
    generateGo responses jit (fuel + 1) attempt lastError best bw sleeps =
      generatePost msg best bw sleeps := by
  simp only [generateGo, herr]
  rw [hbr]
  rw [if_pos rfl]

theorem generateGo_step_throwSleep (responses : Nat → Except String String) (jit : Nat → ℚ)
    (fuel attempt : Nat) (lastError : String) (best : Option Json) (bw : ℚ)
    (sleeps : List ℚ) (msg : String)
    (herr : responses attempt = Except.error msg)
    (hbr : strIncludes msg "Circuit breaker" = false)
    (hlt : attempt < MAX_ATTEMPTS) :
    generateGo responses jit (fuel + 1) attempt lastError best bw sleeps =
      generateGo responses jit fuel (attempt + 1) msg best bw
        (sleeps ++ [calculateBackoff (attempt - 1) 2000 (jit attempt)]) := by
  simp only [generateGo, herr]
  rw [hbr]
  rw [if_neg (by simp)]
  rw [if_pos hlt]

theorem generateGo_step_throwLast (responses : Nat → Except String String) (jit : Nat → ℚ)
    (fuel attempt : Nat) (lastError : String) (best : Option Json) (bw : ℚ)
    (sleeps : List ℚ) (msg : String)
    (herr : responses attempt = Except.error msg)
    (hbr : strIncludes msg "Circuit breaker" = false)
    (hge : ¬attempt < MAX_ATTEMPTS) :
    generateGo responses jit (fuel + 1) attempt lastError best bw sleeps =
      generateGo responses jit fuel (attempt + 1) msg best bw sleeps := by
  simp only [generateGo, herr]
  rw [hbr]
  rw [if_neg (by simp)]
  rw [if_neg hge]

theorem generateGo_step_parseFailSleep (responses : Nat → Except String String)
    (jit : Nat → ℚ) (fuel attempt : Nat) (lastError : String) (best : Option Json)
    (bw : ℚ) (sleeps : List ℚ) (raw : String)
    (hok : responses attempt = Except.ok raw)
    (hfail : (healJSON raw).success = false)
    (hlt : attempt < MAX_ATTEMPTS) :
    generateGo responses jit (fuel + 1) attempt lastError best bw sleeps =
      generateGo responses jit fuel (attempt + 1)
        ((healJSON raw).error.getD "Parse failed") best bw
        (sleeps ++ [calculateBackoff (attempt - 1) 2000 (jit attempt)]) := by
  simp only [generateGo, hok]
  rw [hfail]
  rw [if_pos (by simp)]
  rw [if_pos hlt]

theorem generateGo_step_shortParsed (responses : Nat → Except String String)
    (jit : Nat → ℚ) (fuel attempt : Nat) (lastError : String) (best : Option Json)
    (bw : ℚ) (sleeps : List ℚ) (raw : String)
    (hok : responses attempt = Except.ok raw)
    (hsucc : (healJSON raw).success = true)
    (hacc : acceptB ((healJSON raw).data.getD Json.null) = false) :
    generateGo responses jit (fuel + 1) attempt lastError best bw sleeps =
      generateGo responses jit fuel (attempt + 1)
        ("Content too short: " ++
          toString (wordCountOf ((healJSON raw).data.getD Json.null)) ++ " words")
        (if bw < wordCountOf ((healJSON raw).data.getD Json.null) then
          some ((healJSON raw).data.getD Json.null) else best)
        (if bw < wordCountOf ((healJSON raw).data.getD Json.null) then
          wordCountOf ((healJSON raw).data.getD Json.null) else bw)
        sleeps := by
  simp only [generateGo, hok]
  rw [hsucc]
  rw [if_neg (by simp)]
  rw [hacc]
  rw [if_neg (by simp)]

theorem generateGo_step_accept (responses : Nat → Except String String)
    (jit : Nat → ℚ) (fuel attempt : Nat) (lastError : String) (best : Option Json)
    (bw : ℚ) (sleeps : List ℚ) (raw : String)
    (hok : responses attempt = Except.ok raw)
    (hsucc : (healJSON raw).success = true)
    (hacc : acceptB ((healJSON raw).data.getD Json.null) = true) :
    generateGo responses jit (fuel + 1) attempt lastError best bw sleeps =
      { result := Except.ok
          { contract := finalizeContract ((healJSON raw).data.getD Json.null),
            generationMethod := GenMethod.singleShot,
            attempts := attempt },
        sleeps := sleeps } := by
  simp only [generateGo, hok]
  rw [hsucc]
  rw [if_neg (by simp)]
  rw [hacc]
  rw [if_pos rfl]

/-- The spec's end-to-end run (word counts 1200, 1800, 3000 on attempts
1-3): the third attempt's content is returned with `attempts = 3`, and —
because every attempt parsed and merely missed the acceptance threshold —
no backoff sleep is performed at all. -/
theorem c2_run (jit : Nat → ℚ) :
    generate c2Responses jit =
      { result := Except.ok
          { contract := Json.obj [("htmlContent", Json.str c2Body),
                                  ("wordCount", Json.num ((1 : ℕ) : ℚ))],
            generationMethod := GenMethod.singleShot,
            attempts := 3 },
        sleeps := [] } := by
  unfold generate
  rw [show MAX_ATTEMPTS = 2 + 1 from rfl]
  rw [generateGo_step_shortParsed c2Responses jit 2 1 "" none 0 [] c2Raw1 rfl
    (by rw [c2_heal1]) (by rw [c2_heal1]; rfl)]
  rw [generateGo_step_shortParsed c2Responses jit 1 (1 + 1) _ _ _ _ c2Raw2 rfl
    (by rw [c2_heal2]) (by rw [c2_heal2]; rfl)]
  rw [generateGo_step_accept c2Responses jit 0 (1 + 1 + 1) _ _ _ _ c2Raw3 rfl
    (by rw [c2_heal]) (by rw [c2_heal]; exact c2_acceptB)]
  have hd3 : (healJSON c2Raw3).data.getD Json.null = c2J3 := by rw [c2_heal]; rfl
  rw [hd3, c2_finalize]

/-- C2 (corrected): the single-shot fallback pipeline makes at most 3
attempts and every success is labelled `single-shot`; an attempt is
accepted exactly when its word count reaches `MIN_ACCEPTABLE_WORDS`
(2500) and its `htmlContent` string exceeds 5000 characters, the
returned result carrying `attempts` equal to the number of attempts
used; after the loop, a best attempt reaching the absolute floor 2000 is
returned as a degraded success and otherwise a terminal error carries
the last error; a `Circuit breaker` error ends the loop instead of
retrying.  Correction to the sleep sentence: a backoff sleep separates
attempts only after a parse failure or a thrown non-breaker error (and
not after the last attempt); an attempt that parses but merely misses
the acceptance threshold advances to the next attempt with NO sleep, so
the spec's end-to-end example (word counts 1200/1800/3000 on attempts
1-3, third content returned with `attempts = 3`) performs no backoff
sleep at all. -/
theorem c2_single_shot :
    (∀ (responses : Nat → Except String String) (jit : Nat → ℚ) (res : GenResult),
      (generate responses jit).result = Except.ok res →
      res.generationMethod = GenMethod.singleShot ∧ res.attempts ≤ MAX_ATTEMPTS) ∧
    (∀ j : Json, acceptB j = true ↔
      (MIN_ACCEPTABLE_WORDS ≤ wordCountOf j ∧
        ∃ s, getField j "htmlContent" = some (Json.str s) ∧ 5000 < s.length)) ∧
    (∀ (lastError : String) (b : Json) (bw : ℚ) (sleeps : List ℚ),
      (2000 ≤ bw →
        generatePost lastError (some b) bw sleeps =
          { result := Except.ok { contract := finalizeContract b,
                                  generationMethod := GenMethod.singleShot,
                                  attempts := MAX_ATTEMPTS },
            sleeps := sleeps }) ∧
      (¬2000 ≤ bw →
        generatePost lastError (some b) bw sleeps =
          { result := Except.error
              ("Content generation failed after 3 attempts: " ++ lastError),
            sleeps := sleeps }) ∧
      generatePost lastError none bw sleeps =
        { result := Except.error
            ("Content generation failed after 3 attempts: " ++ lastError),
          sleeps := sleeps }) ∧
    (∀ (responses : Nat → Except String String) (jit : Nat → ℚ) (fuel attempt : Nat)
      (lastError : String) (best : Option Json) (bw : ℚ) (sleeps : List ℚ)
      (msg : String),
      responses attempt = Except.error msg →
      strIncludes msg "Circuit breaker" = true →
      generateGo responses jit (fuel + 1) attempt lastError best bw sleeps =
        generatePost msg best bw sleeps) ∧
    (∀ (responses : Nat → Except String String) (jit : Nat → ℚ) (fuel attempt : Nat)
      (lastError : String) (best : Option Json) (bw : ℚ) (sleeps : List ℚ)
      (msg : String),
      responses attempt = Except.error msg →
      strIncludes msg "Circuit breaker" = false →
      attempt < MAX_ATTEMPTS →
      generateGo responses jit (fuel + 1) attempt lastError best bw sleeps =
        generateGo responses jit fuel (attempt + 1) msg best bw
          (sleeps ++ [calculateBackoff (attempt - 1) 2000 (jit attempt)])) ∧
    (∀ (responses : Nat → Except String String) (jit : Nat → ℚ) (fuel attempt : Nat)
      (lastError : String) (best : Option Json) (bw : ℚ) (sleeps : List ℚ)
      (raw : String),
      responses attempt = Except.ok raw →
      (healJSON raw).success = false →
      attempt < MAX_ATTEMPTS →
      generateGo responses jit (fuel + 1) attempt lastError best bw sleeps =
        generateGo responses jit fuel (attempt + 1)
          ((healJSON raw).error.getD "Parse failed") best bw
          (sleeps ++ [calculateBackoff (attempt - 1) 2000 (jit attempt)])) ∧
    (∀ (responses : Nat → Except String String) (jit : Nat → ℚ) (fuel attempt : Nat)
      (lastError : String) (best : Option Json) (bw : ℚ) (sleeps : List ℚ)
      (raw : String),
      responses attempt = Except.ok raw →
      (healJSON raw).success = true →
      acceptB ((healJSON raw).data.getD Json.null) = false →
      generateGo responses jit (fuel + 1) attempt lastError best bw sleeps =
        generateGo responses jit fuel (attempt + 1)
          ("Content too short: " ++
            toString (wordCountOf ((healJSON raw).data.getD Json.null)) ++ " words")
          (if bw < wordCountOf ((healJSON raw).data.getD Json.null) then
            some ((healJSON raw).data.getD Json.null) else best)
          (if bw < wordCountOf ((healJSON raw).data.getD Json.null) then
            wordCountOf ((healJSON raw).data.getD Json.null) else bw)
          sleeps) ∧
    (∀ jit : Nat → ℚ,
      generate c2Responses jit =
        { result := Except.ok
            { contract := Json.obj [("htmlContent", Json.str c2Body),
                                    ("wordCount", Json.num ((1 : ℕ) : ℚ))],
              generationMethod := GenMethod.singleShot,
              attempts := 3 },
          sleeps := [] }) := by
  refine ⟨?_, ?_, ?_, ?_, ?_, ?_, ?_, c2_run⟩
  · intro responses jit res h
    unfold generate at h
    exact generateGo_shape responses jit MAX_ATTEMPTS 1 "" none 0 [] res (by omega) h
  · intro j
    simp only [acceptB]
    rw [Bool.and_eq_true, decide_eq_true_eq]
    constructor
    · rintro ⟨h1, h2⟩
      refine ⟨h1, ?_⟩
      split at h2
      next s heq => exact ⟨s, heq, of_decide_eq_true h2⟩
      next => exact absurd h2 (by simp)
    · rintro ⟨h1, s, hs, hlen⟩
      refine ⟨h1, ?_⟩
      rw [hs]
      exact decide_eq_true hlen
  · intro lastError b bw sleeps
    refine ⟨?_, ?_, ?_⟩
    · intro h2000
      simp only [generatePost]
      rw [if_pos h2000]
    · intro hlt
      simp only [generatePost]
      rw [if_neg hlt]
      rfl
    · rfl
  · exact generateGo_step_breaker
  · exact generateGo_step_throwSleep
  · exact generateGo_step_parseFailSleep
  · exact generateGo_step_shortParsed

/-- Counterexample to C2's sleep sentence: the spec's own end-to-end run
uses all three attempts (parsed word counts 1200, 1800, 3000) yet
performs no backoff sleep between them, because every attempt parsed and
only missed the acceptance threshold. -/
theorem c2_counterexample :
    ∃ res, (generate c2Responses (fun _ => 0)).result = Except.ok res ∧
      res.attempts = 3 ∧ (generate c2Responses (fun _ => 0)).sleeps = [] := by
  rw [c2_run]
  exact ⟨_, rfl, rfl, rfl⟩

/-- Witness for C2: the end-to-end run returns the third attempt's
content with `attempts = 3` and no sleeps, and the third contract passes
the acceptance test. -/
theorem c2_single_shot_witness :
    (generate c2Responses (fun _ => 1)).result =
      Except.ok { contract := Json.obj [("htmlContent", Json.str c2Body),
                                        ("wordCount", Json.num ((1 : ℕ) : ℚ))],
                  generationMethod := GenMethod.singleShot,
                  attempts := 3 } ∧
    (generate c2Responses (fun _ => 1)).sleeps = [] ∧
    acceptB c2J3 = true := by
  have h8 := c2_single_shot.2.2.2.2.2.2.2 (fun _ => 1)
  refine ⟨by rw [h8], by rw [h8], ?_⟩
  exact (c2_single_shot.2.1 c2J3).2
    ⟨by decide, c2Body, rfl, by rw [c2Body_length]; omega⟩

/-- A 3-section outline response (parsable, but with too few sections). -/
def c3OutlineRaw : String :=
  "\x7b\"htmlContent\":\"ok\",\"title\":\"T\",\"metaDescription\":\"M\",\"slug\":\"s\"," ++
  "\"sections\":[\x7b\"heading\":\"A\"\x7d,\x7b\"heading\":\"B\"\x7d,\x7b\"heading\":\"C\"\x7d]," ++
  "\"faqTopics\":[\"Q?\"],\"keyTakeaways\":[\"K\"]\x7d"

/-- A fallback attempt response parsed with 2400 words: below the 2500
acceptance floor but above the 2000 degraded floor, so the single-shot
fallback returns it as a degraded success with method `single-shot`. -/
def c3FallbackRaw : String := "\x7b\"htmlContent\":\"x\",\"wordCount\":2400\x7d"

def c3Inp : EnhancedInputs :=
  { outlineCall := Except.ok c3OutlineRaw,
    sectionCalls := fun _ => Except.error "never consulted",
    faqCall := Except.error "never consulted",
    introCall := Except.error "never consulted",
    conclusionCall := Except.error "never consulted",
    fallbackResponses := fun _ => Except.ok c3FallbackRaw,
    fallbackJitter := fun _ => 0 }

def c3Col : StagedCollaborators :=
  { css := "", mkKeyTakeaways := fun _ => "", mkFAQAccordion := fun _ => "",
    ytEmbed := none, referencesSection := none }

/-- Witness for C3: the 3-section outline escapes to the fallback, which
here succeeds (degraded) with method `single-shot`. -/
theorem c3_outline_escape_witness :
    generateContentOutline c3Inp.outlineCall = none ∧
    (generateEnhanced c3Col c3Inp "Topic").sectionEntries = [] ∧
    (generateEnhanced c3Col c3Inp "Topic").sectionsProgress = [] ∧
    (∃ res, (generateEnhanced c3Col c3Inp "Topic").result = Except.ok res ∧
      res.generationMethod = GenMethod.singleShot ∧ res.attempts = MAX_ATTEMPTS) := by
  have hnone : generateContentOutline c3Inp.outlineCall = none := by rfl
  have h := c3_outline_escape.1 c3Col c3Inp "Topic" hnone
  refine ⟨hnone, h.2.1, h.2.2.1, ?_⟩
  rw [h.2.2.2.1]
  exact ⟨_, rfl, rfl, rfl⟩

end WPO

